import Mathlib

/-!
# Task management backend: access control and task lifecycle

A shallow embedding of `backend/middleware/auth.js`, `backend/models/Task.js`,
`backend/routes/tasks.js` and the submit path of
`frontend/src/components/TaskForm.js`.

Conventions of the embedding.

* A request handler is a function from the database and the request to a
  response and the database afterwards.  A middleware either ends the request
  with a response (`Except.error`) or hands a value on to the next stage
  (`Except.ok`), so a stage that ends the request keeps every later stage from
  running.
* Dates are milliseconds since the epoch (`Int`); `new Date()` is the `now`
  component of the per-request context.
* Object ids are their canonical lower-case hexadecimal strings.  A string
  handed to `findById` is cast first: twenty-four hexadecimal digits in either
  case denote an object id; a string of twelve characters is cast or refused
  as the installed driver does (`Lib.castTwelve`); any other string makes the
  cast throw, and the `catch` of the surrounding handler answers.
* The validators of `validator.js` the chains call on ids (`isMongoId`, which
  is `isHexadecimal` and a length of 24) are written out.
* Request-body fields are absent (`none`) or strings, `tags` is absent, an
  array of strings or some other value.
* The functions of third-party libraries whose code is not part of the
  repository (JWT verification, `isISO8601`, JavaScript date parsing, the
  MongoDB regular-expression match) are the fields of `Lib`.
* Storage failures (a lost database connection) are not modelled.
* Numbers are integers: the page arithmetic of the list route is exact for
  the values a JavaScript number represents exactly.
* `sort({ createdAt: -1 })` keeps documents of equal `createdAt` in collection
  order; MongoDB leaves their order open.
* A `$regex` pattern the database rejects as malformed is not modelled: the
  match of `Lib` is total.
* The `:year` and `:month` path parameters of the calendar route are numerals;
  the model takes their integer values.
* The task form is its state `formData`, the events that change it and the
  call `handleSubmit` makes; the `Date` functions of the browser are the fields
  of `Browser`, and `hasRole` of the authentication context is a parameter.
-/

namespace TaskManagement

/-! ## Data model -/

/-- A MongoDB object id in its canonical string form. -/
abbrev ObjectId := String

/-- Modelled from the spec: the user model `models/User.js` is not among the
sources; a user has an id, a name, an email and a role, compared as a string
by the middleware. -/
structure User where
  _id : ObjectId
  name : String
  email : String
  role : String
deriving DecidableEq, Repr

/-- A task document, `models/Task.js` (`timestamps: true` adds `createdAt`
and `updatedAt`). -/
structure Task where
  _id : ObjectId
  title : String
  description : String
  status : String
  priority : String
  assignedTo : ObjectId
  createdBy : ObjectId
  dueDate : Int
  completedAt : Option Int
  tags : List String
  createdAt : Int
  updatedAt : Int
deriving DecidableEq, Repr

/-- The two collections. -/
structure Db where
  users : List User
  tasks : List Task
deriving DecidableEq, Repr

/-- Third-party functions used by the routes. -/
structure Lib where
  /-- The `userId` in the payload of a token accepted by `jwt.verify`; `none`
  when it throws. -/
  jwtVerify : String → Option String
  /-- The validator `isISO8601`. -/
  isISO8601 : String → Bool
  /-- The time value of `new Date(s)`; `none` for an invalid date. -/
  parseDate : String → Option Int
  /-- The case-insensitive match of a `$regex` pattern against a string. -/
  regexMatchI : String → String → Bool
  /-- The UTC time value of a local time value, for the time zone of the
  server; the identity for a server that runs in UTC. -/
  utc : Int → Int := id
  /-- The object id a string of twelve characters is cast to by a driver that
  reads such a string as the twelve bytes of an id; `none` for a driver that
  throws on it. -/
  castTwelve : String → Option ObjectId := fun _ => none

/-- What a request gets from its environment: the clock and the id generated
for a new document. -/
structure Ctx where
  now : Int
  freshId : ObjectId
deriving DecidableEq, Repr

/-- The value of the `tags` body field. -/
inductive TagsValue where
  | array (items : List String)
  | other (text : String)
deriving DecidableEq, Repr

/-- The body of a create or update request.  `createdBy` stands for a field
the handlers never read. -/
structure TaskBody where
  title : Option String := none
  description : Option String := none
  status : Option String := none
  priority : Option String := none
  dueDate : Option String := none
  assignedTo : Option String := none
  tags : Option TagsValue := none
  createdBy : Option String := none
deriving DecidableEq, Repr

/-- The part of a request the authentication middleware reads. -/
structure Req where
  authorization : Option String
deriving DecidableEq, Repr

/-- One entry of `errors.array()`. -/
structure FieldError where
  param : String
  msg : String
deriving DecidableEq, Repr

/-- A reference resolved by `populate(path, 'name email')`. -/
structure UserRef where
  _id : ObjectId
  name : String
  email : String
deriving DecidableEq, Repr

/-- A task with `assignedTo` and `createdBy` populated. -/
structure PopulatedTask where
  task : Task
  assignedToUser : Option UserRef
  createdByUser : Option UserRef
deriving DecidableEq, Repr

/-- The `pagination` object of the list response. -/
structure Pagination where
  currentPage : Int
  totalPages : Int
  totalTasks : Int
  hasNext : Bool
  hasPrev : Bool
deriving DecidableEq, Repr

/-- The JSON body of a response. -/
inductive Body where
  | message (msg : String)
  | validationFailed (errors : List FieldError)
  | task (t : Task)
  | taskMessage (msg : String) (t : PopulatedTask)
  | taskPage (tasks : List PopulatedTask) (pagination : Pagination)
  | tasks (tasks : List PopulatedTask)
deriving DecidableEq, Repr

/-- An HTTP response. -/
structure Response where
  status : Nat
  body : Body
deriving DecidableEq, Repr

/-! ## Storage -/

/-- `Task.findById` on an object id. -/
def findTask (db : Db) (id : ObjectId) : Option Task :=
  db.tasks.find? (fun t => t._id == id)

/-- `User.findById` on an object id. -/
def findUser (db : Db) (id : ObjectId) : Option User :=
  db.users.find? (fun u => u._id == id)

/-- Replace the first document that has the id of `t` by `t`. -/
def replaceTask (t : Task) : List Task → List Task
  | [] => []
  | x :: xs => if x._id == t._id then t :: xs else x :: replaceTask t xs

/-- Remove the first document with the given id. -/
def removeTask (id : ObjectId) : List Task → List Task
  | [] => []
  | x :: xs => if x._id == id then xs else x :: removeTask id xs

/-- `task.save()` on a loaded document. -/
def saveTask (db : Db) (t : Task) : Db :=
  { db with tasks := replaceTask t db.tasks }

/-- `task.save()` on a new document. -/
def insertTask (db : Db) (t : Task) : Db :=
  { db with tasks := db.tasks ++ [t] }

/-- `Task.findByIdAndDelete`. -/
def findByIdAndDelete (db : Db) (id : ObjectId) : Db :=
  { db with tasks := removeTask id db.tasks }

/-- `populate(path, 'name email')` of one reference. -/
def populateRef (db : Db) (id : ObjectId) : Option UserRef :=
  (findUser db id).map (fun u => { _id := u._id, name := u.name, email := u.email })

/-- The two `populate` calls of the create and update handlers. -/
def populate (db : Db) (t : Task) : PopulatedTask :=
  { task := t
    assignedToUser := populateRef db t.assignedTo
    createdByUser := populateRef db t.createdBy }

/-! ## Strings -/

/-- JavaScript truthiness of a field that is absent or a string. -/
def truthy : Option String → Bool
  | none => false
  | some s => s != ""

/-- The string form a validator sees: `''` for an absent value. -/
def toStr (v : Option String) : String := v.getD ""

/-- The characters matched by `\s` in a JavaScript regular expression. -/
def isJsSpace (c : Char) : Bool :=
  let n := c.toNat
  n == 0x09 || n == 0x0A || n == 0x0B || n == 0x0C || n == 0x0D || n == 0x20 ||
  n == 0xA0 || n == 0x1680 || (0x2000 ≤ n && n ≤ 0x200A) || n == 0x2028 ||
  n == 0x2029 || n == 0x202F || n == 0x205F || n == 0x3000 || n == 0xFEFF

/-- The sanitizer `trim()`: white space removed from both ends. -/
def trim (s : String) : String :=
  String.mk (((s.data.dropWhile isJsSpace).reverse.dropWhile isJsSpace).reverse)

/-- The validator `isLength({ min, max })`. -/
def isLength (s : String) (min max : Nat) : Bool :=
  min ≤ s.length && s.length ≤ max

/-- A hexadecimal digit. -/
def isHexDigit (c : Char) : Bool :=
  ('0' ≤ c && c ≤ '9') || ('a' ≤ c && c ≤ 'f') || ('A' ≤ c && c ≤ 'F')

/-- A non-empty run of hexadecimal digits. -/
def allHexDigits (cs : List Char) : Bool :=
  !cs.isEmpty && cs.all isHexDigit

/-- The rest of a string after the marker `0x` or `0h`, in either case. -/
def stripHexMarker (cs : List Char) : Option (List Char) :=
  match cs with
  | '0' :: c :: rest =>
    if c == 'x' || c == 'X' || c == 'h' || c == 'H' then some rest else none
  | _ => none

/-- The validator `isHexadecimal`, the pattern `/^(0x|0h)?[0-9A-F]+$/i`. -/
def isHexadecimal (s : String) : Bool :=
  allHexDigits s.data ||
  (match stripHexMarker s.data with
   | some rest => allHexDigits rest
   | none => false)

/-- The validator `isMongoId`: `isHexadecimal(str) && str.length === 24`. -/
def isMongoId (s : String) : Bool :=
  isHexadecimal s && s.length == 24

/-- The strings that denote an object id: twenty-four hexadecimal digits. -/
def isObjectIdHex (s : String) : Bool :=
  s.length == 24 && s.data.all isHexDigit

/-- The lower-case form of a hexadecimal digit. -/
def lowerHex (c : Char) : Char :=
  if 'A' ≤ c && c ≤ 'F' then Char.ofNat (c.toNat + 32) else c

/-- The object id a string of twenty-four hexadecimal digits is cast to, in
canonical form. -/
def castObjectId (s : String) : ObjectId :=
  String.mk (s.data.map lowerHex)

/-- The `length` of a string, in UTF-16 code units. -/
def jsLength (s : String) : Nat :=
  (s.data.map (fun c => if 0x10000 ≤ c.toNat then 2 else 1)).sum

/-- The cast of a string to an object id; `none` when the cast throws.  A string
of twenty-four hexadecimal digits is the id it spells, a string of twelve
characters is left to the driver, any other string throws. -/
def tryCastObjectId (L : Lib) (s : String) : Option ObjectId :=
  if isObjectIdHex s then some (castObjectId s)
  else if jsLength s == 12 then L.castTwelve s
  else none

/-- `Task.findById(id)` on the string of a request: `none` when the cast
throws, `some none` when no document has the id. -/
def findTaskById (L : Lib) (db : Db) (id : String) : Option (Option Task) :=
  (tryCastObjectId L id).map (findTask db)

/-- `User.findById(id)` on the string of a request: `none` when the cast
throws, `some none` when no document has the id. -/
def findUserById (L : Lib) (db : Db) (id : String) : Option (Option User) :=
  (tryCastObjectId L id).map (findUser db)

/-- `str.split(sep)` on characters. -/
def splitChars (sep : Char) : List Char → List (List Char)
  | [] => [[]]
  | c :: cs =>
    if c == sep then [] :: splitChars sep cs
    else
      match splitChars sep cs with
      | [] => [[c]]
      | w :: ws => (c :: w) :: ws

/-- `authHeader.split(' ')[1]`. -/
def bearerToken (authHeader : String) : Option String :=
  ((splitChars ' ' authHeader.data).get? 1).map String.mk

/-! ## Middleware (`middleware/auth.js`) -/

/-- `authenticateToken`: the user of the bearer token, or the response that
ends the request; an error thrown by `jwt.verify` or by the cast of
`User.findById` is caught and answered 403. -/
def authenticateToken (L : Lib) (db : Db) (req : Req) : Except Response User :=
  let token : Option String :=
    match req.authorization with
    | none => none
    | some authHeader => if authHeader == "" then some "" else bearerToken authHeader
  if !truthy token then
    .error ⟨401, .message "Access token required"⟩
  else
    match L.jwtVerify (toStr token) with
    | none => .error ⟨403, .message "Invalid or expired token"⟩
    | some userId =>
      match findUserById L db userId with
      | none => .error ⟨403, .message "Invalid or expired token"⟩
      | some none => .error ⟨401, .message "Invalid token"⟩
      | some (some user) => .ok user

/-- `authorize(...roles)` applied to a request whose `req.user` is `user`. -/
def authorize (roles : List String) (user : Option User) : Except Response Unit :=
  match user with
  | none => .error ⟨401, .message "Authentication required"⟩
  | some u =>
    if !roles.contains u.role then
      .error ⟨403, .message ("Access denied. Required roles: " ++ ", ".intercalate roles)⟩
    else
      .ok ()

/-- `canAccessTask`: the loaded task handed on as `req.task`, or the response
that ends the request; a cast error of `findById` is caught and answered 500. -/
def canAccessTask (L : Lib) (db : Db) (user : User) (taskId : String) : Except Response Task :=
  match findTaskById L db taskId with
  | none => .error ⟨500, .message "Server error"⟩
  | some none => .error ⟨404, .message "Task not found"⟩
  | some (some task) =>
    if user.role == "admin" then
      .ok task
    else if user.role == "manager" then
      .ok task
    else if task.assignedTo == user._id || task.createdBy == user._id then
      .ok task
    else
      .error ⟨403, .message "Access denied to this task"⟩

/-! ## Validation chains (`routes/tasks.js`) -/

/-- The allowed values of `status`. -/
def statusValues : List String := ["pending", "in-progress", "completed", "cancelled"]

/-- The allowed values of `priority`. -/
def priorityValues : List String := ["low", "medium", "high", "urgent"]

/-- One validation chain: the error it reports unless the check holds. -/
def check (ok : Bool) (param msg : String) : List FieldError :=
  if ok then [] else [⟨param, msg⟩]

/-- A chain marked `optional()`: skipped when the field is absent. -/
def checkOptional (v : Option String) (ok : String → Bool) (param msg : String) :
    List FieldError :=
  match v with
  | none => []
  | some s => check (ok s) param msg

/-- The chain `body('tags').optional().isArray()`. -/
def checkTags (v : Option TagsValue) : List FieldError :=
  match v with
  | none => []
  | some (.array _) => []
  | some (.other _) => [⟨"tags", "Tags must be an array"⟩]

/-- The chains of `POST /api/tasks`: the errors in chain order and the body
after the sanitizers. -/
def validateCreate (L : Lib) (b : TaskBody) : List FieldError × TaskBody :=
  let title := trim (toStr b.title)
  let description := trim (toStr b.description)
  let errors :=
    check (isLength title 1 100) "title" "Title must be 1-100 characters" ++
    check (isLength description 1 500) "description" "Description must be 1-500 characters" ++
    check (isMongoId (toStr b.assignedTo)) "assignedTo" "Valid assignedTo ID required" ++
    check (L.isISO8601 (toStr b.dueDate)) "dueDate" "Valid due date required" ++
    checkOptional b.priority (fun s => priorityValues.contains s) "priority" "Invalid priority" ++
    checkTags b.tags
  (errors, { b with title := some title, description := some description })

/-- The chains of `PUT /api/tasks/:id`: the errors in chain order and the body
after the sanitizers. -/
def validateUpdate (L : Lib) (b : TaskBody) : List FieldError × TaskBody :=
  let title := b.title.map trim
  let description := b.description.map trim
  let errors :=
    checkOptional title (fun s => isLength s 1 100) "title" "Title must be 1-100 characters" ++
    checkOptional description (fun s => isLength s 1 500) "description"
      "Description must be 1-500 characters" ++
    checkOptional b.status (fun s => statusValues.contains s) "status" "Invalid status" ++
    checkOptional b.priority (fun s => priorityValues.contains s) "priority" "Invalid priority" ++
    checkOptional b.dueDate L.isISO8601 "dueDate" "Valid due date required" ++
    checkOptional b.assignedTo isMongoId "assignedTo" "Valid assignedTo ID required" ++
    checkTags b.tags
  (errors, { b with title := title, description := description })

/-! ## Handlers (`routes/tasks.js`) -/

/-- The value stored for `tags`: an array of trimmed strings. -/
def castTags : TagsValue → List String
  | .array items => items.map trim
  | .other text => [trim text]

/-- The query string of `GET /api/tasks`.  `assignedTo` stands for a parameter
the handler never reads. -/
structure ListParams where
  page : Option String := none
  limit : Option String := none
  status : Option String := none
  priority : Option String := none
  search : Option String := none
  assignedTo : Option String := none
deriving DecidableEq, Repr

/-- The filter object handed to `Task.find`; `search` is the pattern of the
`$or` of the two `$regex` conditions. -/
structure Query where
  assignedTo : Option ObjectId := none
  status : Option String := none
  priority : Option String := none
  search : Option String := none
deriving DecidableEq, Repr

/-- The query built by the handler of `GET /api/tasks`. -/
def buildListQuery (user : User) (params : ListParams) : Query :=
  let query : Query := {}
  let query := if user.role == "user" then { query with assignedTo := some user._id } else query
  let query := if truthy params.status then { query with status := params.status } else query
  let query := if truthy params.priority then { query with priority := params.priority } else query
  let query := if truthy params.search then { query with search := params.search } else query
  query

/-- Whether a document satisfies one optional equality condition. -/
def fieldMatches (cond : Option String) (value : String) : Bool :=
  match cond with
  | none => true
  | some v => value == v

/-- Whether a task satisfies a filter object: its conditions are conjoined. -/
def Query.matches (L : Lib) (q : Query) (t : Task) : Bool :=
  fieldMatches q.assignedTo t.assignedTo &&
  fieldMatches q.status t.status &&
  fieldMatches q.priority t.priority &&
  (match q.search with
   | none => true
   | some s => L.regexMatchI s t.title || L.regexMatchI s t.description)

/-- The handler of `GET /api/tasks/:id`. -/
def getTaskHandler (task : Task) : Response :=
  ⟨200, .task task⟩

/-- The document `new Task({ ... })` of the create handler: `status` and
`completedAt` are not passed, so the schema defaults apply. -/
def newTask (ctx : Ctx) (user : User) (body : TaskBody) (dueDate : Int) : Task :=
  { _id := ctx.freshId
    title := toStr body.title
    description := toStr body.description
    status := "pending"
    priority := body.priority.getD "medium"
    assignedTo := castObjectId (toStr body.assignedTo)
    createdBy := user._id
    dueDate := dueDate
    completedAt := none
    tags := castTags (body.tags.getD (.array []))
    createdAt := ctx.now
    updatedAt := ctx.now }

/-- The handler of `POST /api/tasks`; an error thrown by the cast of
`User.findById` or by `save()` is caught and answered 500. -/
def createTaskHandler (L : Lib) (ctx : Ctx) (db : Db) (user : User) (raw : TaskBody) :
    Response × Db :=
  let (errors, body) := validateCreate L raw
  if !errors.isEmpty then
    (⟨400, .validationFailed errors⟩, db)
  else
    match findUserById L db (toStr body.assignedTo) with
    | none => (⟨500, .message "Server error"⟩, db)
    | some none => (⟨400, .message "Assigned user not found"⟩, db)
    | some (some _) =>
      match L.parseDate (toStr body.dueDate) with
      | none => (⟨500, .message "Server error"⟩, db)
      | some dueDate =>
        let task := newTask ctx user body dueDate
        let db := insertTask db task
        (⟨201, .taskMessage "Task created successfully" (populate db task)⟩, db)

/-- The status assignment of the update handler, with its effect on
`completedAt`. -/
def setStatus (now : Int) (task : Task) (status : String) : Task :=
  let oldStatus := task.status
  let task := { task with status := status }
  if status == "completed" then
    { task with completedAt := some now }
  else if oldStatus == "completed" && status != "completed" then
    { task with completedAt := none }
  else
    task

/-- The line `if (title !== undefined) task.title = title`. -/
def setTitle (task : Task) (title : Option String) : Task :=
  match title with
  | some title => { task with title := title }
  | none => task

/-- The line `if (description !== undefined) task.description = description`. -/
def setDescription (task : Task) (description : Option String) : Task :=
  match description with
  | some description => { task with description := description }
  | none => task

/-- The block `if (status !== undefined) { ... }`. -/
def setStatusIfDefined (now : Int) (task : Task) (status : Option String) : Task :=
  match status with
  | some status => setStatus now task status
  | none => task

/-- The line `if (priority) task.priority = priority`. -/
def setPriority (task : Task) (priority : Option String) : Task :=
  if truthy priority then { task with priority := toStr priority } else task

/-- The line `if (dueDate) task.dueDate = new Date(dueDate)`; `none` when the
date is invalid, which makes `save()` reject. -/
def setDueDate (L : Lib) (task : Task) (dueDate : Option String) : Option Task :=
  if truthy dueDate then
    (L.parseDate (toStr dueDate)).map (fun d => { task with dueDate := d })
  else some task

/-- The line `if (assignedTo) task.assignedTo = assignedTo`. -/
def setAssignedTo (task : Task) (assignedTo : Option String) : Task :=
  if truthy assignedTo then { task with assignedTo := castObjectId (toStr assignedTo) }
  else task

/-- The line `if (tags !== undefined) task.tags = tags`. -/
def setTags (task : Task) (tags : Option TagsValue) : Task :=
  match tags with
  | some tags => { task with tags := castTags tags }
  | none => task

/-- The field assignments of the update handler, in source order; `none` when
`save()` rejects the document. -/
def updateFields (L : Lib) (now : Int) (task : Task) (body : TaskBody) : Option Task :=
  let task := setTitle task body.title
  let task := setDescription task body.description
  let task := setStatusIfDefined now task body.status
  let task := setPriority task body.priority
  match setDueDate L task body.dueDate with
  | none => none
  | some task =>
    let task := setAssignedTo task body.assignedTo
    let task := setTags task body.tags
    some task

/-- The `updatedAt` stamp `save()` puts on a modified document. -/
def stampUpdated (now : Int) (loaded modified : Task) : Task :=
  if modified = loaded then modified else { modified with updatedAt := now }

/-- The handler of `PUT /api/tasks/:id`; `task` is `req.task`.  The user lookup
runs when `assignedTo` is truthy: an error thrown by its cast is caught and
answered 500, a lookup that finds no user is answered 400. -/
def updateTaskHandler (L : Lib) (ctx : Ctx) (db : Db) (user : User) (task : Task)
    (raw : TaskBody) : Response × Db :=
  let (errors, body) := validateUpdate L raw
  if !errors.isEmpty then
    (⟨400, .validationFailed errors⟩, db)
  else if truthy body.assignedTo && !(["admin", "manager"].contains user.role) then
    (⟨403, .message "Only admins and managers can reassign tasks"⟩, db)
  else if truthy body.assignedTo && (findUserById L db (toStr body.assignedTo)).isNone then
    (⟨500, .message "Server error"⟩, db)
  else if truthy body.assignedTo && findUserById L db (toStr body.assignedTo) == some none then
    (⟨400, .message "Assigned user not found"⟩, db)
  else
    match updateFields L ctx.now task body with
    | none => (⟨500, .message "Server error"⟩, db)
    | some updated =>
      let saved := stampUpdated ctx.now task updated
      let db := saveTask db saved
      (⟨200, .taskMessage "Task updated successfully" (populate db saved)⟩, db)

/-- The handler of `DELETE /api/tasks/:id`; an error thrown by the cast of
`findByIdAndDelete` is caught and answered 500. -/
def deleteTaskHandler (L : Lib) (db : Db) (id : String) : Response × Db :=
  match tryCastObjectId L id with
  | none => (⟨500, .message "Server error"⟩, db)
  | some oid => (⟨200, .message "Task deleted successfully"⟩, findByIdAndDelete db oid)

/-! ## Routes: the middleware chains -/

/-- The route `GET /api/tasks/:id`: `authenticateToken, canAccessTask`, then the
handler. -/
def getTask (L : Lib) (db : Db) (req : Req) (id : String) : Response × Db :=
  match authenticateToken L db req with
  | .error res => (res, db)
  | .ok user =>
    match canAccessTask L db user id with
    | .error res => (res, db)
    | .ok task => (getTaskHandler task, db)

/-- The route `POST /api/tasks`: `authenticateToken, authorize('admin',
'manager')`, then the validation chains and the handler. -/
def createTask (L : Lib) (ctx : Ctx) (db : Db) (req : Req) (body : TaskBody) :
    Response × Db :=
  match authenticateToken L db req with
  | .error res => (res, db)
  | .ok user =>
    match authorize ["admin", "manager"] (some user) with
    | .error res => (res, db)
    | .ok _ => createTaskHandler L ctx db user body

/-- The route `PUT /api/tasks/:id`: `authenticateToken, canAccessTask`, then the
validation chains and the handler. -/
def updateTask (L : Lib) (ctx : Ctx) (db : Db) (req : Req) (id : String)
    (body : TaskBody) : Response × Db :=
  match authenticateToken L db req with
  | .error res => (res, db)
  | .ok user =>
    match canAccessTask L db user id with
    | .error res => (res, db)
    | .ok task => updateTaskHandler L ctx db user task body

/-- The route `DELETE /api/tasks/:id`: `authenticateToken, canAccessTask,
authorize('admin')`, then the handler. -/
def deleteTask (L : Lib) (db : Db) (req : Req) (id : String) : Response × Db :=
  match authenticateToken L db req with
  | .error res => (res, db)
  | .ok user =>
    match canAccessTask L db user id with
    | .error res => (res, db)
    | .ok _ =>
      match authorize ["admin"] (some user) with
      | .error res => (res, db)
      | .ok _ => deleteTaskHandler L db id

/-! ## The list route (`GET /api/tasks`) -/

/-- A decimal digit. -/
def isDigit (c : Char) : Bool := '0' ≤ c && c ≤ '9'

/-- The value of a string of decimal digits. -/
def digitsValue (cs : List Char) : Nat :=
  cs.foldl (fun acc c => 10 * acc + (c.toNat - '0'.toNat)) 0

/-- The strings matched by `/^[-+]?[0-9]+$/`, the pattern of `isInt`. -/
def isIntString (s : String) : Bool :=
  match s.data with
  | '-' :: ds => !ds.isEmpty && ds.all isDigit
  | '+' :: ds => !ds.isEmpty && ds.all isDigit
  | ds => !ds.isEmpty && ds.all isDigit

/-- The number a string matched by the pattern of `isInt` converts to. -/
def intValue (s : String) : Int :=
  match s.data with
  | '-' :: ds => -(digitsValue ds : Int)
  | '+' :: ds => (digitsValue ds : Int)
  | ds => (digitsValue ds : Int)

/-- The validator `isInt({ min, max })`; an absent bound is `none`. -/
def isInt (s : String) (min max : Option Int) : Bool :=
  isIntString s &&
  (match min with
   | none => true
   | some m => m ≤ intValue s) &&
  (match max with
   | none => true
   | some m => intValue s ≤ m)

/-- The value of a hexadecimal digit. -/
def hexDigitValue (c : Char) : Nat :=
  if 'a' ≤ c && c ≤ 'f' then c.toNat - 'a'.toNat + 10
  else if 'A' ≤ c && c ≤ 'F' then c.toNat - 'A'.toNat + 10
  else c.toNat - '0'.toNat

/-- The value of a string of hexadecimal digits. -/
def hexDigitsValue (cs : List Char) : Nat :=
  cs.foldl (fun acc c => 16 * acc + hexDigitValue c) 0

/-- The optional sign `parseInt` reads first: whether it is a minus, and the
rest of the string. -/
def splitSign (cs : List Char) : Bool × List Char :=
  match cs with
  | '-' :: rest => (true, rest)
  | '+' :: rest => (false, rest)
  | rest => (false, rest)

/-- The magnitude `parseInt` reads after the sign: the longest run of
hexadecimal digits after `0x` or `0X`, of decimal digits otherwise; `none` when
the run is empty. -/
def parseMagnitude (cs : List Char) : Option Nat :=
  match cs with
  | '0' :: 'x' :: rest =>
    if (rest.takeWhile isHexDigit).isEmpty then none
    else some (hexDigitsValue (rest.takeWhile isHexDigit))
  | '0' :: 'X' :: rest =>
    if (rest.takeWhile isHexDigit).isEmpty then none
    else some (hexDigitsValue (rest.takeWhile isHexDigit))
  | rest =>
    if (rest.takeWhile isDigit).isEmpty then none
    else some (digitsValue (rest.takeWhile isDigit))

/-- JavaScript `parseInt(s)`: leading white space, an optional sign, then the
digits; `none` is `NaN`. -/
def parseInt (v : Option String) : Option Int :=
  match v with
  | none => none
  | some s =>
    let signed := splitSign (s.data.dropWhile isJsSpace)
    match parseMagnitude signed.2 with
    | none => none
    | some m => if signed.1 then some (-(m : Int)) else some (m : Int)

/-- The expression `n || d` on a number: `d` for `NaN` and for zero. -/
def orDefault (n : Option Int) (d : Int) : Int :=
  match n with
  | none => d
  | some v => if v = 0 then d else v

/-- The chains of `GET /api/tasks`, in chain order.  A query parameter of the
model is a string, so `isString` always holds. -/
def validateList (params : ListParams) : List FieldError :=
  checkOptional params.page (fun s => isInt s (some 1) none) "page"
    "Page must be a positive integer" ++
  checkOptional params.limit (fun s => isInt s (some 1) (some 100)) "limit"
    "Limit must be between 1 and 100" ++
  checkOptional params.status (fun s => statusValues.contains s) "status" "Invalid status" ++
  checkOptional params.priority (fun s => priorityValues.contains s) "priority"
    "Invalid priority" ++
  checkOptional params.search (fun _ => true) "search" "Search must be a string"

/-- `Task.find(query)`: the matching documents in collection order. -/
def findTasks (L : Lib) (db : Db) (q : Query) : List Task :=
  db.tasks.filter (fun t => q.matches L t)

/-- `Task.countDocuments(query)`. -/
def countDocuments (L : Lib) (db : Db) (q : Query) : Int :=
  ((findTasks L db q).length : Int)

/-- `sort({ createdAt: -1 })`. -/
def sortByCreatedAtDesc (tasks : List Task) : List Task :=
  tasks.insertionSort (fun a b => b.createdAt ≤ a.createdAt)

/-- `Math.ceil(total / limit)` for a non-negative total and a positive limit. -/
def ceilDiv (total limit : Int) : Int :=
  (total + limit - 1) / limit

/-- The effective page, `parseInt(req.query.page) || 1`. -/
def pageOf (params : ListParams) : Int := orDefault (parseInt params.page) 1

/-- The effective page size, `parseInt(req.query.limit) || 10`. -/
def limitOf (params : ListParams) : Int := orDefault (parseInt params.limit) 10

/-- The documents of one page:
`Task.find(query).sort({ createdAt: -1 }).skip(skip).limit(limit)`. -/
def pageTasks (L : Lib) (db : Db) (q : Query) (skip limit : Int) : List Task :=
  ((sortByCreatedAtDesc (findTasks L db q)).drop skip.toNat).take limit.toNat

/-- The `pagination` block of the list response. -/
def paginationOf (page limit total : Int) : Pagination :=
  { currentPage := page
    totalPages := ceilDiv total limit
    totalTasks := total
    hasNext := page < ceilDiv total limit
    hasPrev := page > 1 }

/-- The handler of `GET /api/tasks`. -/
def listTasksHandler (L : Lib) (db : Db) (user : User) (params : ListParams) :
    Response × Db :=
  let errors := validateList params
  if !errors.isEmpty then
    (⟨400, .validationFailed errors⟩, db)
  else
    let page := pageOf params
    let limit := limitOf params
    let skip := (page - 1) * limit
    let query := buildListQuery user params
    let tasks := (pageTasks L db query skip limit).map (populate db)
    let total := countDocuments L db query
    (⟨200, .taskPage tasks (paginationOf page limit total)⟩, db)

/-- The route `GET /api/tasks`: `authenticateToken`, then the validation chains
and the handler. -/
def listTasks (L : Lib) (db : Db) (req : Req) (params : ListParams) : Response × Db :=
  match authenticateToken L db req with
  | .error res => (res, db)
  | .ok user => listTasksHandler L db user params

/-- The store invariant MongoDB keeps: no two documents share an `_id`. -/
def uniqueIds (db : Db) : Prop :=
  (db.tasks.map (fun t => t._id)).Nodup

/-! ## The calendar route (`GET /api/tasks/calendar/:year/:month`) -/

/-- The number of days from 1 January 1970 to a day of the proleptic Gregorian
calendar, for a month in 1..12. -/
def daysFromCivil (year month day : Int) : Int :=
  let y := if month ≤ 2 then year - 1 else year
  let era := y / 400
  let yoe := y - era * 400
  let mp := if month > 2 then month - 3 else month + 9
  let doy := (153 * mp + 2) / 5 + day - 1
  let doe := yoe * 365 + yoe / 4 - yoe / 100 + doy
  era * 146097 + doe - 719468

/-- ECMAScript `MakeDay(year, month, date)` with a zero-based month index: a
month index outside 0..11 carries into the year, and the date counts on from
the first of the month, so date 0 is the last day of the month before. -/
def makeDay (year monthIndex date : Int) : Int :=
  daysFromCivil (year + monthIndex / 12) (monthIndex % 12 + 1) 1 + date - 1

/-- The time value of `new Date(year, monthIndex, date, hours, minutes,
seconds)`: local time, milliseconds zero, a year in 0..99 taken as 1900 + year. -/
def makeDate (L : Lib) (year monthIndex date hours minutes seconds : Int) : Int :=
  let yr := if 0 ≤ year ∧ year ≤ 99 then 1900 + year else year
  L.utc (makeDay yr monthIndex date * 86400000 + hours * 3600000 + minutes * 60000 +
    seconds * 1000)

/-- The filter object of the calendar route: the `$gte` and `$lte` bounds of
`dueDate` and the optional `assignedTo` condition. -/
structure CalendarQuery where
  dueDateGte : Int
  dueDateLte : Int
  assignedTo : Option ObjectId := none
deriving DecidableEq, Repr

/-- The query built by the handler of the calendar route. -/
def buildCalendarQuery (L : Lib) (user : User) (year month : Int) : CalendarQuery :=
  let startDate := makeDate L year (month - 1) 1 0 0 0
  let endDate := makeDate L year month 0 23 59 59
  let query : CalendarQuery := { dueDateGte := startDate, dueDateLte := endDate }
  if user.role == "user" then { query with assignedTo := some user._id } else query

/-- Whether a task satisfies the filter object of the calendar route. -/
def CalendarQuery.matches (q : CalendarQuery) (t : Task) : Bool :=
  decide (q.dueDateGte ≤ t.dueDate) && decide (t.dueDate ≤ q.dueDateLte) &&
  fieldMatches q.assignedTo t.assignedTo

/-- `sort({ dueDate: 1 })`. -/
def sortByDueDateAsc (tasks : List Task) : List Task :=
  tasks.insertionSort (fun a b => a.dueDate ≤ b.dueDate)

/-- The handler of the calendar route. -/
def listTasksInRangeHandler (L : Lib) (db : Db) (user : User) (year month : Int) :
    Response × Db :=
  let query := buildCalendarQuery L user year month
  let tasks := sortByDueDateAsc (db.tasks.filter (fun t => query.matches t))
  (⟨200, .tasks (tasks.map (populate db))⟩, db)

/-- The calendar route: `authenticateToken`, then the handler. -/
def listTasksInRange (L : Lib) (db : Db) (req : Req) (year month : Int) : Response × Db :=
  match authenticateToken L db req with
  | .error res => (res, db)
  | .ok user => listTasksInRangeHandler L db user year month

/-- The first instant of a calendar month, month in 1..12. -/
def monthFirstInstant (L : Lib) (year month : Int) : Int :=
  makeDate L year (month - 1) 1 0 0 0

/-- The last instant of a calendar month: the millisecond before the first
instant of the next month. -/
def monthLastInstant (L : Lib) (year month : Int) : Int :=
  makeDate L year month 1 0 0 0 - 1

/-! ## The task form (`frontend/src/components/TaskForm.js`) -/

/-- The `Date` functions of the browser the form uses. -/
structure Browser where
  /-- The time value of `new Date(s)`; `none` for an invalid date. -/
  parseDate : String → Option Int
  /-- `toISOString()` of a valid date. -/
  toISOString : Int → String
  /-- The time value after `setHours(0, 0, 0, 0)`. -/
  startOfDay : Int → Int
  /-- The time value of `new Date()`. -/
  now : Int

/-- The state `formData` of the form. -/
structure FormData where
  title : String := ""
  description : String := ""
  assignedTo : String := ""
  dueDate : String := ""
  priority : String := "medium"
  status : String := "pending"
  tags : List String := []
deriving DecidableEq, Repr

/-- The expression `s || d` on strings. -/
def orElse (s d : String) : String := if s = "" then d else s

/-- The state set by the `useEffect` of the form in edit mode, from the task as
the API delivers it, with `assignedTo` populated or null. -/
def prefillForm (B : Browser) (task : PopulatedTask) : FormData :=
  { title := orElse task.task.title ""
    description := orElse task.task.description ""
    assignedTo :=
      match task.assignedToUser with
      | some ref => orElse (orElse ref._id "[object Object]") ""
      | none => ""
    dueDate := String.mk ((splitChars 'T' (B.toISOString task.task.dueDate).data).headD [])
    priority := orElse task.task.priority "medium"
    status := orElse task.task.status "pending"
    tags := task.task.tags }

/-- What the person at the form does: a change of the named input, the
addition of the tag typed in, the removal of a tag. -/
inductive FormEvent where
  | change (name value : String)
  | tagAdd (tagInput : String)
  | tagRemove (tag : String)
deriving DecidableEq, Repr

/-- The attribute `disabled` of the `assignedTo` select:
`isEditing && !hasRole(['admin', 'manager'])`.  `hasRole` is a function of the
authentication context, which is not among the sources; it is a parameter. -/
def assigneeSelectDisabled (hasRole : List String → Bool) (isEditing : Bool) : Bool :=
  isEditing && !(hasRole ["admin", "manager"])

/-- `handleChange`, `handleTagAdd` and `handleTagRemove`; a disabled select
delivers no change. -/
def applyEvent (disabled : Bool) (form : FormData) (ev : FormEvent) : FormData :=
  match ev with
  | .change name value =>
    if name = "title" then { form with title := value }
    else if name = "description" then { form with description := value }
    else if name = "assignedTo" then
      if disabled then form else { form with assignedTo := value }
    else if name = "dueDate" then { form with dueDate := value }
    else if name = "priority" then { form with priority := value }
    else if name = "status" then { form with status := value }
    else form
  | .tagAdd tagInput =>
    if trim tagInput != "" && !(form.tags.contains (trim tagInput)) then
      { form with tags := form.tags ++ [trim tagInput] }
    else form
  | .tagRemove tag => { form with tags := form.tags.filter (fun x => x != tag) }

/-- `validateForm`: whether the form has no error.  A date that does not parse
compares false with today and raises no error here. -/
def validateForm (B : Browser) (form : FormData) : Bool :=
  trim form.title != "" &&
  trim form.description != "" &&
  form.assignedTo != "" &&
  form.dueDate != "" &&
  (match B.parseDate form.dueDate with
   | none => true
   | some selected => !(decide (B.startOfDay selected < B.startOfDay B.now)))

/-- A call of the tasks API. -/
inductive ApiCall where
  | updateTask (id : ObjectId) (body : TaskBody)
  | createTask (body : TaskBody)
deriving DecidableEq, Repr

/-- `handleSubmit`: the API call the form makes, `none` when the form has an
error or `toISOString` throws on the due date.  `task` is the task being
edited, absent when creating. -/
def handleSubmit (B : Browser) (task : Option PopulatedTask) (form : FormData) :
    Option ApiCall :=
  if !validateForm B form then none
  else
    match B.parseDate form.dueDate with
    | none => none
    | some due =>
      let taskData : TaskBody :=
        { title := some form.title
          description := some form.description
          assignedTo := some form.assignedTo
          dueDate := some (B.toISOString due)
          priority := some form.priority
          status := some form.status
          tags := some (.array form.tags) }
      match task with
      | some edited => some (.updateTask edited.task._id taskData)
      | none => some (.createTask { taskData with status := none })

/-! ## Sample data for concrete evaluations -/

/-- A library instance for concrete evaluations: a token is the id of its
user, and one date string is known. -/
def sampleLib : Lib :=
  { jwtVerify := fun token => some token
    isISO8601 := fun s => s == "2025-03-10"
    parseDate := fun s => if s == "2025-03-10" then some 1741564800000 else none
    regexMatchI := fun _ _ => false }

/-- An administrator. -/
def adminUser : User :=
  { _id := "0000000000000000000000a1", name := "Admin User",
    email := "admin@example.com", role := "admin" }

/-- A manager. -/
def managerUser : User :=
  { _id := "0000000000000000000000b1", name := "Manager User",
    email := "manager@example.com", role := "manager" }

/-- A plain user, the assignee of `sampleTask`. -/
def johnUser : User :=
  { _id := "0000000000000000000000c1", name := "John Doe",
    email := "user@example.com", role := "user" }

/-- A plain user with no task. -/
def janeUser : User :=
  { _id := "0000000000000000000000c2", name := "Jane Smith",
    email := "jane@example.com", role := "user" }

/-- A pending task created by the administrator and assigned to John. -/
def sampleTask : Task :=
  { _id := "0000000000000000000000f1"
    title := "Fix authentication bug"
    description := "Investigate the token expiration issue"
    status := "pending"
    priority := "urgent"
    assignedTo := "0000000000000000000000c1"
    createdBy := "0000000000000000000000a1"
    dueDate := 1741564800000
    completedAt := none
    tags := ["bug-fix"]
    createdAt := 1000
    updatedAt := 1000 }

/-- A completed task assigned to John. -/
def doneTask : Task :=
  { sampleTask with
    _id := "0000000000000000000000f2"
    status := "completed"
    completedAt := some 5000
    updatedAt := 5000 }

/-- A database with the four users and the two tasks. -/
def sampleDb : Db :=
  { users := [adminUser, managerUser, johnUser, janeUser]
    tasks := [sampleTask, doneTask] }

/-- A request carrying the token of the given user. -/
def requestOf (u : User) : Req :=
  { authorization := some ("Bearer " ++ u._id) }

/-- A request context. -/
def sampleCtx : Ctx :=
  { now := 9000, freshId := "0000000000000000000000f3" }

/-! ## Lifecycle vocabulary -/

/-- The value of `completedAt` after the status block of the update handler,
as a function of the task before and of the `status` field of the body. -/
def completedAtAfter (now : Int) (t : Task) (status : Option String) : Option Int :=
  match status with
  | none => t.completedAt
  | some s =>
    if s = "completed" then some now
    else if t.status = "completed" then none
    else t.completedAt

/-- The fields of a task the lifecycle claims are about. -/
def lifecycle (t : Task) : ObjectId × ObjectId × String × Option Int :=
  (t._id, t.createdBy, t.status, t.completedAt)

/-- The tasks reachable by a successful create request followed by successful
update requests, each sent by any actor in any database that stores the task. -/
inductive Reachable (L : Lib) : Task → Prop where
  | create (ctx : Ctx) (db : Db) (req : Req) (body : TaskBody) (msg : String)
      (created : PopulatedTask) :
      (createTask L ctx db req body).1 = ⟨201, .taskMessage msg created⟩ →
      Reachable L created.task
  | update (ctx : Ctx) (db : Db) (req : Req) (id : String) (body : TaskBody)
      (t t' : Task) :
      Reachable L t →
      findTaskById L db id = some (some t) →
      (updateTask L ctx db req id body).1.status = 200 →
      findTaskById L (updateTask L ctx db req id body).2 id = some (some t') →
      Reachable L t'

/-- A well-formed create body. -/
def sampleBody : TaskBody :=
  { title := some "Write unit tests", description := some "Cover the task routes",
    assignedTo := some "0000000000000000000000c1", dueDate := some "2025-03-10" }

/-- The task the manager creates from `sampleBody` in `sampleDb`. -/
def createdTask : Task :=
  { _id := "0000000000000000000000f3"
    title := "Write unit tests"
    description := "Cover the task routes"
    status := "pending"
    priority := "medium"
    assignedTo := "0000000000000000000000c1"
    createdBy := "0000000000000000000000b1"
    dueDate := 1741564800000
    completedAt := none
    tags := []
    createdAt := 9000
    updatedAt := 9000 }

/-- The sample database after that creation. -/
def createdDb : Db := insertTask sampleDb createdTask

/-- The created task after John has set its status to `completed` at 9500. -/
def completedTask : Task :=
  { createdTask with status := "completed", completedAt := some 9500, updatedAt := 9500 }

/-- A create body whose title and tag carry surrounding blanks and that also
carries a `status` and a `createdBy`. -/
def paddedBody : TaskBody :=
  { title := some "  Plan the release  ", description := some "Cut the branch",
    assignedTo := some "0000000000000000000000c1", dueDate := some "2025-03-10",
    status := some "completed", createdBy := some "0000000000000000000000c2",
    tags := some (.array [" backend "]) }

/-! ## Search vocabulary -/

/-- The lower-case form of an ASCII letter. -/
def lowerAscii (c : Char) : Char :=
  if 'A' ≤ c && c ≤ 'Z' then Char.ofNat (c.toNat + 32) else c

/-- The metacharacters of a regular expression, by code point: backslash,
caret, dollar, dot, bar, question mark, star, plus, the round, square and curly
brackets. -/
def isRegexMeta (c : Char) : Bool :=
  [92, 94, 36, 46, 124, 63, 42, 43, 40, 41, 91, 93, 123, 125].contains c.toNat

/-- A pattern without metacharacters. -/
def isLiteralPattern (s : String) : Bool :=
  s.data.all (fun c => !isRegexMeta c)

/-- Whether `p` is a prefix of the text, letters compared without case. -/
def isPrefixIgnoreCase : List Char → List Char → Bool
  | [], _ => true
  | _ :: _, [] => false
  | p :: ps, c :: cs => lowerAscii p == lowerAscii c && isPrefixIgnoreCase ps cs

/-- Whether `p` occurs somewhere in the text, letters compared without case. -/
def occursIgnoreCase (p : List Char) : List Char → Bool
  | [] => isPrefixIgnoreCase p []
  | c :: cs => isPrefixIgnoreCase p (c :: cs) || occursIgnoreCase p cs

/-- The search of the specification: `s`, compared case-insensitively, occurs
as a literal substring of `text`. -/
def containsIgnoreCase (s text : String) : Bool :=
  occursIgnoreCase s.data text.data

/-- Whether a pattern made of ordinary characters and dots matches at the start
of the text: a dot matches any character but a line feed, any other character
matches itself without regard to case. -/
def matchHere : List Char → List Char → Bool
  | [], _ => true
  | _ :: _, [] => false
  | p :: ps, c :: cs =>
    (if p == '.' then c != '\n' else lowerAscii p == lowerAscii c) && matchHere ps cs

/-- Whether such a pattern matches somewhere in the text. -/
def searchPattern (p : List Char) : List Char → Bool
  | [] => matchHere p []
  | c :: cs => matchHere p (c :: cs) || searchPattern p cs

/-- The sample library with the regular-expression match of patterns made of
ordinary characters and dots. -/
def patternLib : Lib :=
  { sampleLib with regexMatchI := fun p text => searchPattern p.data text.data }

/-- The fifteen tasks of the pagination scenario, created at times 1 to 15 and
assigned to John. -/
def fifteenTasks : List Task :=
  (List.range 15).map (fun i =>
    { sampleTask with
      _id := String.mk ("00000000000000000000010".data ++ [Nat.digitChar i])
      createdAt := (i : Int) + 1
      updatedAt := (i : Int) + 1 })

/-- The sample users with the fifteen tasks. -/
def fifteenDb : Db :=
  { users := sampleDb.users, tasks := fifteenTasks }

/-! ## Calendar vocabulary -/

/-- The visibility condition of the list query on a task. -/
def listScope (u : User) (params : ListParams) (t : Task) : Bool :=
  fieldMatches (buildListQuery u params).assignedTo t.assignedTo

/-- The visibility condition of the calendar query on a task. -/
def calendarScope (L : Lib) (u : User) (year month : Int) (t : Task) : Bool :=
  fieldMatches (buildCalendarQuery L u year month).assignedTo t.assignedTo

/-- A task due on 31 March 2025 at 23:59:59.500 UTC, half a second before the
end of the month. -/
def lateTask : Task :=
  { sampleTask with _id := "0000000000000000000000f5", dueDate := 1743465599500 }

/-- The sample users with that task alone. -/
def lateDb : Db :=
  { users := sampleDb.users, tasks := [lateTask] }

/-! ## Validation vocabulary -/

/-- The fields of an update patch that have a format rule, in the order of the
chains. -/
def updateFieldNames : List String :=
  ["title", "description", "status", "priority", "dueDate", "assignedTo", "tags"]

/-- Whether a present field of an update patch violates its format rule, in the
words of the specification: title 1-100 characters after trimming, description
1-500 after trimming, status and priority in their enums, dueDate ISO-8601,
assignedTo a well-formed id (twenty-four hexadecimal digits, the strings that
denote an object id), tags an array. -/
def fieldViolates (L : Lib) (b : TaskBody) (field : String) : Bool :=
  if field = "title" then
    match b.title with
    | none => false
    | some s => !(decide (1 ≤ (trim s).length) && decide ((trim s).length ≤ 100))
  else if field = "description" then
    match b.description with
    | none => false
    | some s => !(decide (1 ≤ (trim s).length) && decide ((trim s).length ≤ 500))
  else if field = "status" then
    match b.status with
    | none => false
    | some s => !(decide (s ∈ ["pending", "in-progress", "completed", "cancelled"]))
  else if field = "priority" then
    match b.priority with
    | none => false
    | some s => !(decide (s ∈ ["low", "medium", "high", "urgent"]))
  else if field = "dueDate" then
    match b.dueDate with
    | none => false
    | some s => !(L.isISO8601 s)
  else if field = "assignedTo" then
    match b.assignedTo with
    | none => false
    | some s => !(isObjectIdHex s)
  else if field = "tags" then
    match b.tags with
    | some (.other _) => true
    | _ => false
  else false

/-- The violating fields of an update patch, in the order of the chains. -/
def violatingFields (L : Lib) (b : TaskBody) : List String :=
  updateFieldNames.filter (fieldViolates L b)

/-! ## An actor with an unknown role -/

/-- A user whose role is none of admin, manager and user. -/
def guestUser : User :=
  { _id := "0000000000000000000000d1", name := "Guest", email := "guest@example.com",
    role := "guest" }

/-- The sample database with the guest added. -/
def guestDb : Db :=
  { users := sampleDb.users ++ [guestUser], tasks := sampleDb.tasks }

/-! ## Sample data for the task form -/

/-- A browser that knows two dates. -/
def sampleBrowser : Browser :=
  { parseDate := fun s =>
      if s == "2025-03-10" then some 1741564800000
      else if s == "2025-03-20" then some 1742428800000 else none
    toISOString := fun d =>
      if d == 1741564800000 then "2025-03-10T00:00:00.000Z" else "2025-03-20T00:00:00.000Z"
    startOfDay := fun d => d
    now := 1741564800000 }

/-- The sample library accepting the date strings the browser sends. -/
def formLib : Lib :=
  { sampleLib with
    isISO8601 := fun s => s == "2025-03-10T00:00:00.000Z" || s == "2025-03-20T00:00:00.000Z"
    parseDate := fun s =>
      if s == "2025-03-10T00:00:00.000Z" then some 1741564800000
      else if s == "2025-03-20T00:00:00.000Z" then some 1742428800000 else none }

/-- John renames his task, tags it and tries the disabled assignee select. -/
def johnEdits : List FormEvent :=
  [.change "title" "Fix the authentication bug", .tagAdd " urgent ",
    .change "assignedTo" "0000000000000000000000c2"]

/-- The body the form submits after John's edits. -/
def johnPayload : TaskBody :=
  { title := some "Fix the authentication bug"
    description := some "Investigate the token expiration issue"
    status := some "pending"
    priority := some "urgent"
    dueDate := some "2025-03-10T00:00:00.000Z"
    assignedTo := some "0000000000000000000000c1"
    tags := some (.array ["bug-fix", "urgent"]) }

/-- The body the form submits when the administrator opens the completed task,
changes its title and touches nothing else. -/
def renamePayload : TaskBody :=
  { title := some "Archive the login fix"
    description := some "Investigate the token expiration issue"
    status := some "completed"
    priority := some "urgent"
    dueDate := some "2025-03-10T00:00:00.000Z"
    assignedTo := some "0000000000000000000000c1"
    tags := some (.array ["bug-fix"]) }

/-! ## The task-level gate -/

/-- The outcome of `canAccessTask` on a stored task, as one conditional. -/
theorem canAccessTask_of_found {L : Lib} {db : Db} {u : User} {id : String} {t : Task}
    (ht : findTaskById L db id = some (some t)) :
    canAccessTask L db u id =
      if u.role = "admin" ∨ u.role = "manager" ∨ u._id = t.assignedTo ∨ u._id = t.createdBy
      then .ok t else .error ⟨403, .message "Access denied to this task"⟩ := by
  unfold canAccessTask
  rw [ht]
  by_cases h1 : u.role = "admin"
  · simp [h1]
  · by_cases h2 : u.role = "manager"
    · simp [h2]
    · by_cases h3 : t.assignedTo = u._id
      · simp [h1, h2, h3]
      · by_cases h4 : t.createdBy = u._id
        · simp [h1, h2, h4]
        · have h3' : ¬ u._id = t.assignedTo := fun h => h3 h.symm
          have h4' : ¬ u._id = t.createdBy := fun h => h4 h.symm
          simp [h1, h2, h3, h4, h3', h4']

/-- C1: for a stored task `t` and an authenticated actor `u`, `canAccessTask`
hands `t` on to the handler iff `u` is an admin, a manager, the assignee or the
creator of `t` (the read route then answers 200 with `t`); in every other case
it answers 403 and the read, update and delete routes end there, with the
database untouched. -/
theorem canAccessTask_allows_iff (L : Lib) (ctx : Ctx) (db : Db) (req : Req) (u : User)
    (id : String) (t : Task) (body : TaskBody)
    (hauth : authenticateToken L db req = .ok u) (ht : findTaskById L db id = some (some t)) :
    (canAccessTask L db u id = .ok t ↔
      (u.role = "admin" ∨ u.role = "manager" ∨ u._id = t.assignedTo ∨ u._id = t.createdBy)) ∧
    ((u.role = "admin" ∨ u.role = "manager" ∨ u._id = t.assignedTo ∨ u._id = t.createdBy) →
      getTask L db req id = (⟨200, .task t⟩, db)) ∧
    (¬ (u.role = "admin" ∨ u.role = "manager" ∨ u._id = t.assignedTo ∨ u._id = t.createdBy) →
      canAccessTask L db u id = .error ⟨403, .message "Access denied to this task"⟩ ∧
      getTask L db req id = (⟨403, .message "Access denied to this task"⟩, db) ∧
      updateTask L ctx db req id body = (⟨403, .message "Access denied to this task"⟩, db) ∧
      deleteTask L db req id = (⟨403, .message "Access denied to this task"⟩, db)) := by
  have key := canAccessTask_of_found (u := u) ht
  refine ⟨?_, ?_, ?_⟩
  · rw [key]
    constructor
    · intro h
      by_contra hc
      rw [if_neg hc] at h
      cases h
    · intro h
      rw [if_pos h]
  · intro h
    rw [if_pos h] at key
    simp only [getTask, hauth, key, getTaskHandler]
  · intro hc
    rw [if_neg hc] at key
    refine ⟨key, ?_, ?_, ?_⟩
    · simp only [getTask, hauth, key]
    · simp only [updateTask, hauth, key]
    · simp only [deleteTask, hauth, key]

/-- Jane, neither assignee nor creator of the sample task, is denied on the
read route. -/
theorem canAccessTask_allows_iff_witness :
    authenticateToken sampleLib sampleDb (requestOf janeUser) = .ok janeUser ∧
    findTaskById sampleLib sampleDb "0000000000000000000000f1" = some (some sampleTask) ∧
    getTask sampleLib sampleDb (requestOf janeUser) "0000000000000000000000f1" =
      (⟨403, .message "Access denied to this task"⟩, sampleDb) :=
  ⟨rfl, rfl,
    ((canAccessTask_allows_iff sampleLib sampleCtx sampleDb (requestOf janeUser) janeUser
      "0000000000000000000000f1" sampleTask {} rfl rfl).2.2 (by decide)).2.1⟩

/-! ## Visibility scoping of the list query -/

/-- C2: with no status, priority or search filter, the query built for an actor
of role `user` matches a task iff the task is assigned to the actor, whatever
the request carries as an `assignedTo` parameter; the query built for a manager
or an admin matches every task. -/
theorem listQuery_visibility (L : Lib) (u : User) (params : ListParams) (t : Task)
    (hstatus : truthy params.status = false) (hpriority : truthy params.priority = false)
    (hsearch : truthy params.search = false) :
    (u.role = "user" → ((buildListQuery u params).matches L t = true ↔ t.assignedTo = u._id)) ∧
    ((u.role = "manager" ∨ u.role = "admin") → (buildListQuery u params).matches L t = true) := by
  constructor
  · intro hr
    simp [buildListQuery, Query.matches, fieldMatches, hstatus, hpriority, hsearch, hr]
  · intro hr
    have hne : ¬ u.role = "user" := by
      rcases hr with h | h <;> rw [h] <;> decide
    simp [buildListQuery, Query.matches, fieldMatches, hstatus, hpriority, hsearch, hne]

/-- John lists with a foreign `assignedTo` parameter and still gets the task
assigned to him. -/
theorem listQuery_visibility_witness :
    truthy ({ assignedTo := some "0000000000000000000000c2" } : ListParams).status = false ∧
    johnUser.role = "user" ∧
    ((buildListQuery johnUser { assignedTo := some "0000000000000000000000c2" }).matches
        sampleLib sampleTask = true ↔
      sampleTask.assignedTo = johnUser._id) :=
  ⟨rfl, rfl, (listQuery_visibility sampleLib johnUser { assignedTo := some "0000000000000000000000c2" }
    sampleTask rfl rfl rfl).1 rfl⟩

/-! ## Reassignment by a plain user -/

/-- A string accepted by `isMongoId` is truthy. -/
theorem truthy_of_isMongoId {s : String} (h : isMongoId s = true) : truthy (some s) = true := by
  have hne : s ≠ "" := by
    rintro rfl
    revert h
    decide
  simpa [truthy] using hne

/-- The sanitizers of the update chains leave `assignedTo` alone. -/
theorem validateUpdate_assignedTo (L : Lib) (b : TaskBody) :
    (validateUpdate L b).2.assignedTo = b.assignedTo := rfl

/-- An update body that passes validation and carries `assignedTo` carries a
truthy one. -/
theorem truthy_assignedTo_of_valid {L : Lib} {b : TaskBody} {s : String}
    (hs : b.assignedTo = some s) (hv : (validateUpdate L b).1 = []) :
    truthy (validateUpdate L b).2.assignedTo = true := by
  rw [validateUpdate_assignedTo, hs]
  apply truthy_of_isMongoId
  simp only [validateUpdate, List.append_eq_nil, hs, checkOptional, check] at hv
  by_contra hc
  simp [hc] at hv

/-- C3, as amended: an update by an actor of role `user` whose payload carries
`assignedTo` never changes the database; it is answered 403 when the actor is
neither assignee nor creator of the task, 403 when the actor passes the task
gate and the payload passes format validation, and 400 with the list of
validation errors when the actor passes the task gate and the payload fails
format validation. -/
theorem user_reassign_refused (L : Lib) (ctx : Ctx) (db : Db) (req : Req) (u : User)
    (id : String) (t : Task) (body : TaskBody) (s : String)
    (hauth : authenticateToken L db req = .ok u) (hrole : u.role = "user")
    (ht : findTaskById L db id = some (some t)) (hs : body.assignedTo = some s) :
    (updateTask L ctx db req id body).2 = db ∧
    (¬ (u._id = t.assignedTo ∨ u._id = t.createdBy) →
      (updateTask L ctx db req id body).1 = ⟨403, .message "Access denied to this task"⟩) ∧
    ((u._id = t.assignedTo ∨ u._id = t.createdBy) → (validateUpdate L body).1 = [] →
      (updateTask L ctx db req id body).1 =
        ⟨403, .message "Only admins and managers can reassign tasks"⟩) ∧
    ((u._id = t.assignedTo ∨ u._id = t.createdBy) → (validateUpdate L body).1 ≠ [] →
      (updateTask L ctx db req id body).1 =
        ⟨400, .validationFailed (validateUpdate L body).1⟩) := by
  have key := canAccessTask_of_found (u := u) ht
  have hna : ¬ u.role = "admin" := by rw [hrole]; decide
  have hnm : ¬ u.role = "manager" := by rw [hrole]; decide
  have hnot : (["admin", "manager"].contains u.role) = false := by rw [hrole]; decide
  by_cases hown : u._id = t.assignedTo ∨ u._id = t.createdBy
  · have hok : canAccessTask L db u id = .ok t := by
      rw [key, if_pos (Or.inr (Or.inr hown))]
    by_cases hv : (validateUpdate L body).1 = []
    · have htr := truthy_assignedTo_of_valid hs hv
      have hres : updateTask L ctx db req id body =
          (⟨403, .message "Only admins and managers can reassign tasks"⟩, db) := by
        simp [updateTask, hauth, hok, updateTaskHandler, hv, htr, hna, hnm]
      simp [hres, hown, hv]
    · have hres : updateTask L ctx db req id body =
          (⟨400, .validationFailed (validateUpdate L body).1⟩, db) := by
        simp [updateTask, hauth, hok, updateTaskHandler, hv]
      simp [hres, hown, hv]
  · have hden : canAccessTask L db u id = .error ⟨403, .message "Access denied to this task"⟩ := by
      rw [key, if_neg]
      rintro (h | h | h)
      · exact hna h
      · exact hnm h
      · exact hown h
    have hres : updateTask L ctx db req id body =
        (⟨403, .message "Access denied to this task"⟩, db) := by
      simp only [updateTask, hauth, hden]
    simp [hres, hown]

/-- John, the assignee, is refused the reassignment of his task with 403. -/
theorem user_reassign_refused_witness :
    authenticateToken sampleLib sampleDb (requestOf johnUser) = .ok johnUser ∧
    johnUser.role = "user" ∧
    findTaskById sampleLib sampleDb "0000000000000000000000f1" = some (some sampleTask) ∧
    (updateTask sampleLib sampleCtx sampleDb (requestOf johnUser) "0000000000000000000000f1"
      { assignedTo := some "0000000000000000000000c2" }).1 =
      ⟨403, .message "Only admins and managers can reassign tasks"⟩ :=
  ⟨rfl, rfl, rfl,
    (user_reassign_refused sampleLib sampleCtx sampleDb (requestOf johnUser) johnUser
      "0000000000000000000000f1" sampleTask { assignedTo := some "0000000000000000000000c2" }
      "0000000000000000000000c2" rfl rfl rfl rfl).2.2.1 (by decide) rfl⟩

/-- C3, as stated, fails: John, of role `user` and assignee of the stored sample
task, sends an update carrying a well-formed `assignedTo` and an empty title;
the answer is 400 (validation failed), not 403. -/
theorem user_reassign_invalid_payload_400 :
    authenticateToken sampleLib sampleDb (requestOf johnUser) = .ok johnUser ∧
    johnUser.role = "user" ∧
    findTaskById sampleLib sampleDb "0000000000000000000000f1" = some (some sampleTask) ∧
    (updateTask sampleLib sampleCtx sampleDb (requestOf johnUser) "0000000000000000000000f1"
      { assignedTo := some "0000000000000000000000c2", title := some "" }).1 =
      ⟨400, .validationFailed [⟨"title", "Title must be 1-100 characters"⟩]⟩ ∧
    (updateTask sampleLib sampleCtx sampleDb (requestOf johnUser) "0000000000000000000000f1"
      { assignedTo := some "0000000000000000000000c2", title := some "" }).1.status ≠ 403 :=
  ⟨rfl, rfl, rfl, rfl, by decide⟩

/-! ## The delete route -/

/-- The role gate of the delete route refuses every role other than admin. -/
theorem authorize_admin_refuses {u : User} (h : u.role ≠ "admin") :
    authorize ["admin"] (some u) =
      .error ⟨403, .message "Access denied. Required roles: admin"⟩ := by
  simp [authorize, h]
  rfl

/-- A lookup through the cast that finds a document: the string casts to an id
under which the collection holds the document. -/
theorem findTaskById_some {L : Lib} {db : Db} {id : String} {t : Task}
    (h : findTaskById L db id = some (some t)) :
    ∃ oid, tryCastObjectId L id = some oid ∧ findTask db oid = some t := by
  unfold findTaskById at h
  rw [Option.map_eq_some'] at h
  exact h

/-- The outcome of `canAccessTask` on an id that references no stored task. -/
theorem canAccessTask_of_missing {L : Lib} {db : Db} {u : User} {id : String}
    (h : findTaskById L db id = some none) :
    canAccessTask L db u id = .error ⟨404, .message "Task not found"⟩ := by
  unfold canAccessTask
  rw [h]

/-- The outcome of `canAccessTask` on an id whose cast throws. -/
theorem canAccessTask_of_cast_error {L : Lib} {db : Db} {u : User} {id : String}
    (h : findTaskById L db id = none) :
    canAccessTask L db u id = .error ⟨500, .message "Server error"⟩ := by
  unfold canAccessTask
  rw [h]

/-- C4, as amended: for an actor of role manager or user the delete route never
changes the database; it answers 403 when the id references a stored task
(whoever owns it) and 404 when it is a well-formed id that references none, the
task being loaded by `canAccessTask` before the role gate of the delete route
runs. -/
theorem delete_refused_for_non_admin (L : Lib) (db : Db) (req : Req) (u : User) (id : String)
    (hauth : authenticateToken L db req = .ok u)
    (hrole : u.role = "manager" ∨ u.role = "user") :
    (deleteTask L db req id).2 = db ∧
    ((∃ t, findTaskById L db id = some (some t)) →
      (deleteTask L db req id).1.status = 403) ∧
    (findTaskById L db id = some none →
      (deleteTask L db req id).1 = ⟨404, .message "Task not found"⟩) := by
  have hna : u.role ≠ "admin" := by
    rcases hrole with h | h <;> rw [h] <;> decide
  cases ht : findTaskById L db id with
  | none =>
    have hres : deleteTask L db req id = (⟨500, .message "Server error"⟩, db) := by
      simp only [deleteTask, hauth, canAccessTask_of_cast_error ht]
    simp [hres]
  | some found =>
    cases found with
    | none =>
      have hres : deleteTask L db req id = (⟨404, .message "Task not found"⟩, db) := by
        simp only [deleteTask, hauth, canAccessTask_of_missing ht]
      simp [hres]
    | some t =>
      have key := canAccessTask_of_found (u := u) ht
      by_cases hc : u.role = "admin" ∨ u.role = "manager" ∨ u._id = t.assignedTo ∨
          u._id = t.createdBy
      · rw [if_pos hc] at key
        have hres : deleteTask L db req id =
            (⟨403, .message "Access denied. Required roles: admin"⟩, db) := by
          simp only [deleteTask, hauth, key, authorize_admin_refuses hna]
        simp [hres]
      · rw [if_neg hc] at key
        have hres : deleteTask L db req id =
            (⟨403, .message "Access denied to this task"⟩, db) := by
          simp only [deleteTask, hauth, key]
        simp [hres]

/-- The manager is refused the deletion of the stored sample task with 403, the
id being spelled in upper case. -/
theorem delete_refused_for_non_admin_witness :
    authenticateToken sampleLib sampleDb (requestOf managerUser) = .ok managerUser ∧
    findTaskById sampleLib sampleDb "0000000000000000000000F1" = some (some sampleTask) ∧
    (deleteTask sampleLib sampleDb (requestOf managerUser) "0000000000000000000000F1").2 =
      sampleDb ∧
    (deleteTask sampleLib sampleDb (requestOf managerUser) "0000000000000000000000F1").1.status =
      403 :=
  ⟨rfl, rfl,
    (delete_refused_for_non_admin sampleLib sampleDb (requestOf managerUser) managerUser
      "0000000000000000000000F1" rfl (Or.inl rfl)).1,
    (delete_refused_for_non_admin sampleLib sampleDb (requestOf managerUser) managerUser
      "0000000000000000000000F1" rfl (Or.inl rfl)).2.1 ⟨sampleTask, rfl⟩⟩

/-- C4, as stated, fails: the manager deletes with a well-formed id that
references no stored task and is answered 404, not 403. -/
theorem delete_missing_task_by_manager_404 :
    authenticateToken sampleLib sampleDb (requestOf managerUser) = .ok managerUser ∧
    managerUser.role = "manager" ∧
    findTaskById sampleLib sampleDb "0000000000000000000000ff" = some none ∧
    (deleteTask sampleLib sampleDb (requestOf managerUser) "0000000000000000000000ff").1 =
      ⟨404, .message "Task not found"⟩ ∧
    (deleteTask sampleLib sampleDb (requestOf managerUser) "0000000000000000000000ff").1.status ≠
      403 :=
  ⟨rfl, rfl, rfl, rfl, by decide⟩

/-! ## Existence before authorization -/

/-- For every authenticated actor, whatever the role, the read, update and
delete routes answer 404 and leave the database unchanged when the id is a
well-formed object id that references no stored task; when the cast of
`findById` throws on the id, `canAccessTask` catches the error and the three
routes answer 500, again before any role or ownership test and with the
database unchanged. -/
theorem missing_task_is_not_found (L : Lib) (ctx : Ctx) (db : Db) (req : Req) (u : User)
    (id : String) (body : TaskBody)
    (hauth : authenticateToken L db req = .ok u) :
    (findTaskById L db id = some none →
      getTask L db req id = (⟨404, .message "Task not found"⟩, db) ∧
      updateTask L ctx db req id body = (⟨404, .message "Task not found"⟩, db) ∧
      deleteTask L db req id = (⟨404, .message "Task not found"⟩, db)) ∧
    (findTaskById L db id = none →
      getTask L db req id = (⟨500, .message "Server error"⟩, db) ∧
      updateTask L ctx db req id body = (⟨500, .message "Server error"⟩, db) ∧
      deleteTask L db req id = (⟨500, .message "Server error"⟩, db)) := by
  constructor
  · intro hmissing
    have key := canAccessTask_of_missing (u := u) hmissing
    refine ⟨?_, ?_, ?_⟩
    · simp only [getTask, hauth, key]
    · simp only [updateTask, hauth, key]
    · simp only [deleteTask, hauth, key]
  · intro hthrows
    have key := canAccessTask_of_cast_error (u := u) hthrows
    refine ⟨?_, ?_, ?_⟩
    · simp only [getTask, hauth, key]
    · simp only [updateTask, hauth, key]
    · simp only [deleteTask, hauth, key]

/-- C5, the code at the failing input: Jane, a plain user, reads, updates and
deletes with the id `nope`, which references no stored task; the cast of
`findById` throws, `canAccessTask` catches the error, and each route answers
500 `Server error`, not 404, whereas on a well-formed id that references no
stored task the read route answers her 404. -/
theorem malformed_id_is_server_error :
    authenticateToken sampleLib sampleDb (requestOf janeUser) = .ok janeUser ∧
    (∀ t ∈ sampleDb.tasks, t._id ≠ "nope") ∧
    getTask sampleLib sampleDb (requestOf janeUser) "nope" =
      (⟨500, .message "Server error"⟩, sampleDb) ∧
    updateTask sampleLib sampleCtx sampleDb (requestOf janeUser) "nope" {} =
      (⟨500, .message "Server error"⟩, sampleDb) ∧
    deleteTask sampleLib sampleDb (requestOf janeUser) "nope" =
      (⟨500, .message "Server error"⟩, sampleDb) ∧
    (getTask sampleLib sampleDb (requestOf janeUser) "nope").1.status ≠ 404 ∧
    getTask sampleLib sampleDb (requestOf janeUser) "0000000000000000000000ff" =
      (⟨404, .message "Task not found"⟩, sampleDb) :=
  ⟨rfl, by decide, rfl, rfl, rfl, by decide, rfl⟩

/-! ## The role gate of the create route -/

/-- C6: the create route answers 403 to an actor of role `user`, whatever the
body, and stores nothing; for an admin or a manager the role gate passes and
the outcome is that of the validation chains and the handler. -/
theorem create_role_gate (L : Lib) (ctx : Ctx) (db : Db) (req : Req) (u : User)
    (body : TaskBody) (hauth : authenticateToken L db req = .ok u) :
    (u.role = "user" →
      createTask L ctx db req body =
        (⟨403, .message "Access denied. Required roles: admin, manager"⟩, db)) ∧
    ((u.role = "admin" ∨ u.role = "manager") →
      authorize ["admin", "manager"] (some u) = .ok () ∧
      createTask L ctx db req body = createTaskHandler L ctx db u body) := by
  constructor
  · intro hr
    have hgate : authorize ["admin", "manager"] (some u) =
        .error ⟨403, .message "Access denied. Required roles: admin, manager"⟩ := by
      simp [authorize, hr]
      rfl
    simp only [createTask, hauth, hgate]
  · intro hr
    have hgate : authorize ["admin", "manager"] (some u) = .ok () := by
      rcases hr with h | h <;> simp [authorize, h]
    exact ⟨hgate, by simp only [createTask, hauth, hgate]⟩

/-- John, a plain user, is refused a well-formed create request. -/
theorem create_role_gate_witness :
    authenticateToken sampleLib sampleDb (requestOf johnUser) = .ok johnUser ∧
    createTask sampleLib sampleCtx sampleDb (requestOf johnUser)
      { title := some "Write unit tests", description := some "Cover the task routes",
        assignedTo := some "0000000000000000000000c1", dueDate := some "2025-03-10" } =
      (⟨403, .message "Access denied. Required roles: admin, manager"⟩, sampleDb) :=
  ⟨rfl,
    (create_role_gate sampleLib sampleCtx sampleDb (requestOf johnUser) johnUser
      { title := some "Write unit tests", description := some "Cover the task routes",
        assignedTo := some "0000000000000000000000c1", dueDate := some "2025-03-10" } rfl).1 rfl⟩

/-! ## Storage lemmas -/

/-- A document found by id has that id. -/
theorem findTask_id {db : Db} {id : ObjectId} {t : Task} (h : findTask db id = some t) :
    t._id = id := by
  have := List.find?_some h
  simpa using this

/-- A document found through the cast has the id the string casts to. -/
theorem findTaskById_id {L : Lib} {db : Db} {id : String} {t : Task}
    (h : findTaskById L db id = some (some t)) :
    tryCastObjectId L id = some t._id ∧ findTask db t._id = some t := by
  obtain ⟨oid, hc, hf⟩ := findTaskById_some h
  have hid := findTask_id hf
  subst hid
  exact ⟨hc, hf⟩

/-- After `replaceTask`, the lookup by the id of the saved document yields it. -/
theorem find_replaceTask_same (t' : Task) (l : List Task) {t : Task}
    (h : l.find? (fun x => x._id == t'._id) = some t) :
    (replaceTask t' l).find? (fun x => x._id == t'._id) = some t' := by
  induction l with
  | nil => simp at h
  | cons x xs ih =>
    by_cases hx : x._id = t'._id
    · simp [replaceTask, hx]
    · have hb : (x._id == t'._id) = false := by simpa using hx
      rw [List.find?_cons, hb] at h
      simp [replaceTask, hx, ih h]

/-- The projection `f` of the collection is unchanged by `replaceTask` when the
saved document agrees under `f` with the one it replaces. -/
theorem replaceTask_map {β : Type} (f : Task → β) (t' : Task) (l : List Task)
    (h : ∀ t, l.find? (fun x => x._id == t'._id) = some t → f t' = f t) :
    (replaceTask t' l).map f = l.map f := by
  induction l with
  | nil => rfl
  | cons x xs ih =>
    by_cases hx : x._id = t'._id
    · have := h x (by simp [hx])
      simp [replaceTask, hx, this]
    · have h' : ∀ t, xs.find? (fun x => x._id == t'._id) = some t → f t' = f t := by
        intro t ht
        apply h
        simp [List.find?_cons, hx, ht]
      simp [replaceTask, hx, ih h']

/-- Saving a loaded document makes it the one found under its id. -/
theorem findTask_saveTask {db : Db} {id : ObjectId} {t t' : Task}
    (h : findTask db id = some t) (hid : t'._id = id) :
    findTask (saveTask db t') id = some t' := by
  subst hid
  exact find_replaceTask_same t' db.tasks h

/-- Saving a document loaded through the cast makes it the one found under the
same string. -/
theorem findTaskById_saveTask {L : Lib} {db : Db} {id : String} {t t' : Task}
    (h : findTaskById L db id = some (some t)) (hid : t'._id = t._id) :
    findTaskById L (saveTask db t') id = some (some t') := by
  obtain ⟨hc, hf⟩ := findTaskById_id h
  unfold findTaskById
  rw [hc, Option.map_some', findTask_saveTask hf hid]

/-! ## Lifecycle lemmas -/

/-- Assigning the title leaves the lifecycle fields alone. -/
theorem lifecycle_setTitle (t : Task) (x : Option String) :
    lifecycle (setTitle t x) = lifecycle t := by
  cases x <;> rfl

/-- Assigning the description leaves the lifecycle fields alone. -/
theorem lifecycle_setDescription (t : Task) (x : Option String) :
    lifecycle (setDescription t x) = lifecycle t := by
  cases x <;> rfl

/-- Assigning the priority leaves the lifecycle fields alone. -/
theorem lifecycle_setPriority (t : Task) (x : Option String) :
    lifecycle (setPriority t x) = lifecycle t := by
  unfold setPriority
  split <;> rfl

/-- Assigning a valid due date leaves the lifecycle fields alone. -/
theorem lifecycle_setDueDate {L : Lib} {t t' : Task} {x : Option String}
    (h : setDueDate L t x = some t') : lifecycle t' = lifecycle t := by
  unfold setDueDate at h
  split at h
  · rw [Option.map_eq_some'] at h
    obtain ⟨d, -, rfl⟩ := h
    rfl
  · injection h with h
    rw [h]

/-- Assigning the assignee leaves the lifecycle fields alone. -/
theorem lifecycle_setAssignedTo (t : Task) (x : Option String) :
    lifecycle (setAssignedTo t x) = lifecycle t := by
  unfold setAssignedTo
  split <;> rfl

/-- Assigning the tags leaves the lifecycle fields alone. -/
theorem lifecycle_setTags (t : Task) (x : Option TagsValue) :
    lifecycle (setTags t x) = lifecycle t := by
  cases x <;> rfl

/-- The `updatedAt` stamp leaves the lifecycle fields alone. -/
theorem lifecycle_stampUpdated (now : Int) (t t' : Task) :
    lifecycle (stampUpdated now t t') = lifecycle t' := by
  unfold stampUpdated
  split <;> rfl

/-- The lifecycle fields after the status block. -/
theorem lifecycle_setStatusIfDefined (now : Int) (t : Task) (x : Option String) :
    lifecycle (setStatusIfDefined now t x) =
      (t._id, t.createdBy, x.getD t.status, completedAtAfter now t x) := by
  cases x with
  | none => rfl
  | some s =>
    simp only [setStatusIfDefined, setStatus, completedAtAfter, Option.getD]
    by_cases h1 : s = "completed"
    · simp [h1, lifecycle]
    · by_cases h2 : t.status = "completed"
      · simp [h1, h2, lifecycle]
      · simp [h1, h2, lifecycle]

/-- The lifecycle fields after the field assignments of an update. -/
theorem lifecycle_updateFields {L : Lib} {now : Int} {t t' : Task} {b : TaskBody}
    (h : updateFields L now t b = some t') :
    lifecycle t' = (t._id, t.createdBy, b.status.getD t.status, completedAtAfter now t b.status) := by
  unfold updateFields at h
  simp only [] at h
  split at h
  · cases h
  · rename_i task hdue
    injection h with h
    subst h
    rw [lifecycle_setTags, lifecycle_setAssignedTo, lifecycle_setDueDate hdue,
      lifecycle_setPriority, lifecycle_setStatusIfDefined]
    have h1 := lifecycle_setDescription (setTitle t b.title) b.description
    rw [lifecycle_setTitle] at h1
    simp only [lifecycle, Prod.mk.injEq] at h1
    obtain ⟨e1, e2, e3, e4⟩ := h1
    simp only [completedAtAfter, e1, e2, e3, e4]

/-! ## Outcomes of the update route -/

/-- A response that ends the request in `authenticateToken` is a 401 or a 403. -/
theorem authenticateToken_error_status {L : Lib} {db : Db} {req : Req} {res : Response}
    (h : authenticateToken L db req = .error res) : res.status = 401 ∨ res.status = 403 := by
  unfold authenticateToken at h
  simp only [] at h
  split at h
  · injection h with h
    subst h
    exact Or.inl rfl
  · split at h
    · injection h with h
      subst h
      exact Or.inr rfl
    · split at h
      · injection h with h
        subst h
        exact Or.inr rfl
      · injection h with h
        subst h
        exact Or.inl rfl
      · cases h

/-- A task handed on by `canAccessTask` is the stored task the id casts to. -/
theorem canAccessTask_ok_found {L : Lib} {db : Db} {u : User} {id : String} {t : Task}
    (h : canAccessTask L db u id = .ok t) : findTaskById L db id = some (some t) := by
  cases hf : findTaskById L db id with
  | none =>
    rw [canAccessTask_of_cast_error hf] at h
    cases h
  | some found =>
    cases found with
    | none =>
      rw [canAccessTask_of_missing hf] at h
      cases h
    | some t0 =>
      have key := canAccessTask_of_found (u := u) hf
      rw [key] at h
      split at h
      · injection h with h
        rw [h]
      · cases h

/-- A response that ends the request in `canAccessTask` is a 404, a 403 or a
500. -/
theorem canAccessTask_error_status {L : Lib} {db : Db} {u : User} {id : String}
    {res : Response} (h : canAccessTask L db u id = .error res) :
    res.status = 404 ∨ res.status = 403 ∨ res.status = 500 := by
  cases hf : findTaskById L db id with
  | none =>
    rw [canAccessTask_of_cast_error hf] at h
    injection h with h
    subst h
    exact Or.inr (Or.inr rfl)
  | some found =>
    cases found with
    | none =>
      rw [canAccessTask_of_missing hf] at h
      injection h with h
      subst h
      exact Or.inl rfl
    | some t0 =>
      have key := canAccessTask_of_found (u := u) hf
      rw [key] at h
      split at h
      · cases h
      · injection h with h
        subst h
        exact Or.inr (Or.inl rfl)

/-- The update handler either answers with an error and leaves the database
alone, or saves the stamped result of the field assignments and answers 200. -/
theorem updateTaskHandler_outcome (L : Lib) (ctx : Ctx) (db : Db) (u : User) (t : Task)
    (body : TaskBody) :
    ((updateTaskHandler L ctx db u t body).1.status ≠ 200 ∧
      (updateTaskHandler L ctx db u t body).2 = db) ∨
    (∃ updated, (validateUpdate L body).1 = [] ∧
      updateFields L ctx.now t (validateUpdate L body).2 = some updated ∧
      updateTaskHandler L ctx db u t body =
        (⟨200, .taskMessage "Task updated successfully"
            (populate (saveTask db (stampUpdated ctx.now t updated))
              (stampUpdated ctx.now t updated))⟩,
          saveTask db (stampUpdated ctx.now t updated))) := by
  unfold updateTaskHandler
  simp only []
  split
  · exact Or.inl ⟨by simp, rfl⟩
  · rename_i hv
    split
    · exact Or.inl ⟨by simp, rfl⟩
    · split
      · exact Or.inl ⟨by simp, rfl⟩
      · split
        · exact Or.inl ⟨by simp, rfl⟩
        · split
          · exact Or.inl ⟨by simp, rfl⟩
          · rename_i updated hu
            refine Or.inr ⟨updated, ?_, hu, rfl⟩
            simpa using hv

/-- The update route either answers with an error and leaves the database
alone, or saves the stamped result of the field assignments on the stored task
and answers 200. -/
theorem updateTask_outcome (L : Lib) (ctx : Ctx) (db : Db) (req : Req) (id : String)
    (body : TaskBody) :
    ((updateTask L ctx db req id body).1.status ≠ 200 ∧
      (updateTask L ctx db req id body).2 = db) ∨
    (∃ u t updated, authenticateToken L db req = .ok u ∧ findTaskById L db id = some (some t) ∧
      (validateUpdate L body).1 = [] ∧
      updateFields L ctx.now t (validateUpdate L body).2 = some updated ∧
      updateTask L ctx db req id body =
        (⟨200, .taskMessage "Task updated successfully"
            (populate (saveTask db (stampUpdated ctx.now t updated))
              (stampUpdated ctx.now t updated))⟩,
          saveTask db (stampUpdated ctx.now t updated))) := by
  cases ha : authenticateToken L db req with
  | error res =>
    have hres : updateTask L ctx db req id body = (res, db) := by
      simp only [updateTask, ha]
    left
    rw [hres]
    refine ⟨?_, rfl⟩
    rcases authenticateToken_error_status ha with h | h <;> simp [h]
  | ok u =>
    cases hc : canAccessTask L db u id with
    | error res =>
      have hres : updateTask L ctx db req id body = (res, db) := by
        simp only [updateTask, ha, hc]
      left
      rw [hres]
      refine ⟨?_, rfl⟩
      rcases canAccessTask_error_status hc with h | h | h <;> simp [h]
    | ok t =>
      have hres : updateTask L ctx db req id body = updateTaskHandler L ctx db u t body := by
        simp only [updateTask, ha, hc]
      rw [hres]
      rcases updateTaskHandler_outcome L ctx db u t body with h | ⟨updated, hv, hu, hh⟩
      · exact Or.inl h
      · exact Or.inr ⟨u, t, updated, rfl, canAccessTask_ok_found hc, hv, hu, hh⟩

/-- After a successful update of the stored task `t`, the task stored under the
same id has the lifecycle fields computed by the status assignment. -/
theorem updateTask_success_lifecycle {L : Lib} {ctx : Ctx} {db : Db} {req : Req}
    {id : String} {body : TaskBody} {t : Task}
    (ht : findTaskById L db id = some (some t))
    (hok : (updateTask L ctx db req id body).1.status = 200) :
    ∃ t', findTaskById L (updateTask L ctx db req id body).2 id = some (some t') ∧
      lifecycle t' =
        (t._id, t.createdBy, body.status.getD t.status, completedAtAfter ctx.now t body.status) := by
  rcases updateTask_outcome L ctx db req id body with ⟨hne, -⟩ | ⟨u, t0, updated, -, ht0, -, hu, hres⟩
  · exact absurd hok hne
  · rw [ht] at ht0
    have ht0' : t = t0 := by
      injection ht0 with ht0
      injection ht0
    subst ht0'
    have hl := lifecycle_updateFields hu
    have hs := lifecycle_stampUpdated ctx.now t updated
    refine ⟨stampUpdated ctx.now t updated, ?_, ?_⟩
    · rw [hres]
      apply findTaskById_saveTask ht
      have : (lifecycle (stampUpdated ctx.now t updated)).1 = t._id := by rw [hs, hl]
      exact this
    · rw [hs, hl]
      rfl

/-! ## Status transitions and `completedAt` -/

/-- C7: after a successful update of a stored task, the task stored under the
same id has `completedAt` set (to the time of the update) when its status moved
from a value other than `completed` to `completed`, and has no `completedAt`
when its status moved from `completed` to a different value. -/
theorem completedAt_follows_transition (L : Lib) (ctx : Ctx) (db : Db) (req : Req)
    (id : String) (body : TaskBody) (t : Task)
    (ht : findTaskById L db id = some (some t))
    (hok : (updateTask L ctx db req id body).1.status = 200) :
    ∃ t', findTaskById L (updateTask L ctx db req id body).2 id = some (some t') ∧
      (t.status ≠ "completed" → t'.status = "completed" → t'.completedAt = some ctx.now) ∧
      (t.status = "completed" → t'.status ≠ "completed" → t'.completedAt = none) := by
  obtain ⟨t', hf, hl⟩ := updateTask_success_lifecycle ht hok
  simp only [lifecycle, Prod.mk.injEq] at hl
  obtain ⟨-, -, hst, hca⟩ := hl
  refine ⟨t', hf, ?_, ?_⟩
  · intro hold hnew
    cases hb : body.status with
    | none =>
      rw [hb] at hst
      have hst' : t'.status = t.status := hst
      exact absurd (hst' ▸ hnew) hold
    | some s =>
      rw [hb] at hst hca
      have hs : s = "completed" := by
        simpa [hst] using hnew
      simp [hca, completedAtAfter, hs]
  · intro hold hnew
    cases hb : body.status with
    | none =>
      rw [hb] at hst
      have hst' : t'.status = t.status := hst
      exact absurd (hst'.symm ▸ hold) hnew
    | some s =>
      rw [hb] at hst hca
      have hs : s ≠ "completed" := by
        simpa [hst] using hnew
      simp [hca, completedAtAfter, hs, hold]

/-- John completes the pending sample task: the stored task then carries the
time of the update as `completedAt`. -/
theorem completedAt_follows_transition_witness :
    findTaskById sampleLib sampleDb "0000000000000000000000f1" = some (some sampleTask) ∧
    (updateTask sampleLib sampleCtx sampleDb (requestOf johnUser) "0000000000000000000000f1"
      { status := some "completed" }).1.status = 200 ∧
    ∃ t', findTaskById sampleLib (updateTask sampleLib sampleCtx sampleDb (requestOf johnUser)
        "0000000000000000000000f1" { status := some "completed" }).2
        "0000000000000000000000f1" = some (some t') ∧
      (sampleTask.status ≠ "completed" → t'.status = "completed" →
        t'.completedAt = some sampleCtx.now) ∧
      (sampleTask.status = "completed" → t'.status ≠ "completed" → t'.completedAt = none) :=
  ⟨rfl, rfl,
    completedAt_follows_transition sampleLib sampleCtx sampleDb (requestOf johnUser)
      "0000000000000000000000f1" { status := some "completed" } sampleTask rfl rfl⟩

/-- The update handler on a write of the current status: the status stays,
`completedAt` stays when that status is not `completed`, and `completedAt` is
set to the time of the update when that status is `completed`, the handler
stamping on the written value without comparing it with the old status. -/
theorem same_status_write (L : Lib) (ctx : Ctx) (db : Db) (req : Req)
    (id : String) (body : TaskBody) (t : Task)
    (ht : findTaskById L db id = some (some t)) (hsame : body.status = some t.status)
    (hok : (updateTask L ctx db req id body).1.status = 200) :
    ∃ t', findTaskById L (updateTask L ctx db req id body).2 id = some (some t') ∧
      t'.status = t.status ∧
      (t.status ≠ "completed" → t'.completedAt = t.completedAt) ∧
      (t.status = "completed" → t'.completedAt = some ctx.now) := by
  obtain ⟨t', hf, hl⟩ := updateTask_success_lifecycle ht hok
  simp only [lifecycle, Prod.mk.injEq] at hl
  obtain ⟨-, -, hst, hca⟩ := hl
  rw [hsame] at hst hca
  refine ⟨t', hf, hst, ?_, ?_⟩
  · intro h
    simp [hca, completedAtAfter, h]
  · intro h
    simp [hca, completedAtAfter, h]

/-- C8, the code at the failing input: the stored task `doneTask` is completed
with `completedAt` 5000.  The administrator's update at time 9000 sets `status`
to `completed` again, succeeds, and the stored `completedAt` becomes 9000.  The
task form sends such an update on every edit: opened on `doneTask` with only the
title changed, it submits a body that carries the current status, and the
completion time is overwritten in the same way. -/
theorem completed_rewrite_moves_completedAt :
    findTaskById sampleLib sampleDb "0000000000000000000000f2" = some (some doneTask) ∧
    doneTask.status = "completed" ∧
    doneTask.completedAt = some 5000 ∧
    (updateTask sampleLib sampleCtx sampleDb (requestOf adminUser) "0000000000000000000000f2"
      { status := some "completed" }).1.status = 200 ∧
    (∃ t', findTaskById sampleLib (updateTask sampleLib sampleCtx sampleDb (requestOf adminUser)
        "0000000000000000000000f2" { status := some "completed" }).2
        "0000000000000000000000f2" = some (some t') ∧
      t'.status = doneTask.status ∧
      t'.completedAt = some 9000 ∧ t'.completedAt ≠ doneTask.completedAt) ∧
    handleSubmit sampleBrowser (some (populate sampleDb doneTask))
      (applyEvent false (prefillForm sampleBrowser (populate sampleDb doneTask))
        (.change "title" "Archive the login fix")) =
      some (.updateTask "0000000000000000000000f2" renamePayload) ∧
    renamePayload.status = some doneTask.status ∧
    (updateTask formLib sampleCtx sampleDb (requestOf adminUser) "0000000000000000000000f2"
      renamePayload).1.status = 200 ∧
    (∃ t', findTaskById formLib (updateTask formLib sampleCtx sampleDb (requestOf adminUser)
        "0000000000000000000000f2" renamePayload).2
        "0000000000000000000000f2" = some (some t') ∧
      t'.title = "Archive the login fix" ∧
      t'.completedAt = some 9000 ∧ t'.completedAt ≠ doneTask.completedAt) :=
  ⟨rfl, rfl, rfl, rfl,
    ⟨{ doneTask with completedAt := some 9000, updatedAt := 9000 }, rfl, rfl, rfl, by decide⟩,
    rfl, rfl, rfl,
    ⟨{ doneTask with
        title := "Archive the login fix"
        completedAt := some 9000
        updatedAt := 9000 }, rfl, rfl, rfl, by decide⟩⟩

/-! ## Immutability of `createdBy` -/

/-- Two collections with the same ids and creators in the same order answer a
lookup by id with documents of the same creator. -/
theorem find_createdBy_of_map_eq {l l' : List Task}
    (h : l'.map (fun t => (t._id, t.createdBy)) = l.map (fun t => (t._id, t.createdBy)))
    {id : String} {t : Task} (hf : l.find? (fun x => x._id == id) = some t) :
    ∃ t', l'.find? (fun x => x._id == id) = some t' ∧ t'.createdBy = t.createdBy := by
  induction l generalizing l' with
  | nil => simp at hf
  | cons x xs ih =>
    cases l' with
    | nil => simp at h
    | cons y ys =>
      simp only [List.map_cons, List.cons.injEq, Prod.mk.injEq] at h
      obtain ⟨⟨hid, hcb⟩, hrest⟩ := h
      by_cases hx : x._id = id
      · have hxt : x = t := by
          simpa [List.find?_cons, hx] using hf
        subst hxt
        exact ⟨y, by simp [List.find?_cons, hid, hx], hcb⟩
      · have hb : (x._id == id) = false := by simpa using hx
        have hb' : (y._id == id) = false := by rw [hid]; exact hb
        rw [List.find?_cons, hb] at hf
        obtain ⟨t', ht', hc⟩ := ih hrest hf
        exact ⟨t', by rw [List.find?_cons, hb']; exact ht', hc⟩

/-- C10: whatever the actor, the target id and the body (a `createdBy` field
included), and whether the update succeeds or not, the collection after the
update route holds the same ids in the same order, each with the `createdBy` it
had before; so every stored task is still stored afterwards, with the same
`createdBy`. -/
theorem createdBy_immutable (L : Lib) (ctx : Ctx) (db : Db) (req : Req) (id : String)
    (body : TaskBody) (id' : ObjectId) (t : Task) (ht : findTask db id' = some t) :
    (updateTask L ctx db req id body).2.tasks.map (fun t => (t._id, t.createdBy)) =
      db.tasks.map (fun t => (t._id, t.createdBy)) ∧
    ∃ t', findTask (updateTask L ctx db req id body).2 id' = some t' ∧
      t'.createdBy = t.createdBy := by
  have hmap : (updateTask L ctx db req id body).2.tasks.map (fun t => (t._id, t.createdBy)) =
      db.tasks.map (fun t => (t._id, t.createdBy)) := by
    rcases updateTask_outcome L ctx db req id body with
      ⟨-, hdb⟩ | ⟨u, t0, updated, -, ht0, -, hu, hres⟩
    · rw [hdb]
    · rw [hres]
      have hl := lifecycle_updateFields hu
      have hs := lifecycle_stampUpdated ctx.now t0 updated
      rw [hl] at hs
      simp only [lifecycle, Prod.mk.injEq] at hs
      obtain ⟨hid, hcb, -, -⟩ := hs
      apply replaceTask_map
      intro t1 ht1
      have hstored : findTask db t0._id = some t0 := (findTaskById_id ht0).2
      have hfound : findTask db t0._id = some t1 := by
        unfold findTask
        rw [hid] at ht1
        exact ht1
      rw [hstored] at hfound
      injection hfound with hfound
      subst hfound
      simp [hid, hcb]
  exact ⟨hmap, find_createdBy_of_map_eq hmap ht⟩

/-- The administrator's successful update of the sample task with a body that
carries a `createdBy` field leaves the creator of the stored task in place. -/
theorem createdBy_immutable_witness :
    findTask sampleDb "0000000000000000000000f1" = some sampleTask ∧
    (updateTask sampleLib sampleCtx sampleDb (requestOf adminUser) "0000000000000000000000f1"
      { title := some "Renamed", createdBy := some "0000000000000000000000c2" }).1.status = 200 ∧
    ∃ t', findTask (updateTask sampleLib sampleCtx sampleDb (requestOf adminUser)
        "0000000000000000000000f1"
        { title := some "Renamed", createdBy := some "0000000000000000000000c2" }).2
        "0000000000000000000000f1" = some t' ∧
      t'.createdBy = sampleTask.createdBy :=
  ⟨rfl, rfl,
    (createdBy_immutable sampleLib sampleCtx sampleDb (requestOf adminUser)
      "0000000000000000000000f1"
      { title := some "Renamed", createdBy := some "0000000000000000000000c2" }
      "0000000000000000000000f1" sampleTask rfl).2⟩

/-! ## Outcomes of the create route -/

/-- A response of the role gate that ends the request is a 401 or a 403. -/
theorem authorize_error_status {roles : List String} {user : Option User} {res : Response}
    (h : authorize roles user = .error res) : res.status = 401 ∨ res.status = 403 := by
  unfold authorize at h
  split at h
  · injection h with h
    subst h
    exact Or.inl rfl
  · split at h
    · injection h with h
      subst h
      exact Or.inr rfl
    · cases h

/-- The create handler either answers with an error and leaves the database
alone, or inserts the new document and answers 201 with it. -/
theorem createTaskHandler_outcome (L : Lib) (ctx : Ctx) (db : Db) (u : User) (body : TaskBody) :
    ((createTaskHandler L ctx db u body).1.status ≠ 201 ∧
      (createTaskHandler L ctx db u body).2 = db) ∨
    (∃ dueDate, (validateCreate L body).1 = [] ∧
      L.parseDate (toStr (validateCreate L body).2.dueDate) = some dueDate ∧
      createTaskHandler L ctx db u body =
        (⟨201, .taskMessage "Task created successfully"
            (populate (insertTask db (newTask ctx u (validateCreate L body).2 dueDate))
              (newTask ctx u (validateCreate L body).2 dueDate))⟩,
          insertTask db (newTask ctx u (validateCreate L body).2 dueDate))) := by
  unfold createTaskHandler
  simp only []
  split
  · exact Or.inl ⟨by simp, rfl⟩
  · rename_i hv
    split
    · exact Or.inl ⟨by simp, rfl⟩
    · exact Or.inl ⟨by simp, rfl⟩
    · split
      · exact Or.inl ⟨by simp, rfl⟩
      · rename_i dueDate hd
        refine Or.inr ⟨dueDate, ?_, hd, rfl⟩
        simpa using hv

/-- The create route either answers with an error and leaves the database
alone, or inserts the new document and answers 201 with it. -/
theorem createTask_outcome (L : Lib) (ctx : Ctx) (db : Db) (req : Req) (body : TaskBody) :
    ((createTask L ctx db req body).1.status ≠ 201 ∧ (createTask L ctx db req body).2 = db) ∨
    (∃ u dueDate, authenticateToken L db req = .ok u ∧ (validateCreate L body).1 = [] ∧
      L.parseDate (toStr (validateCreate L body).2.dueDate) = some dueDate ∧
      createTask L ctx db req body =
        (⟨201, .taskMessage "Task created successfully"
            (populate (insertTask db (newTask ctx u (validateCreate L body).2 dueDate))
              (newTask ctx u (validateCreate L body).2 dueDate))⟩,
          insertTask db (newTask ctx u (validateCreate L body).2 dueDate))) := by
  cases ha : authenticateToken L db req with
  | error res =>
    have hres : createTask L ctx db req body = (res, db) := by
      simp only [createTask, ha]
    left
    rw [hres]
    refine ⟨?_, rfl⟩
    rcases authenticateToken_error_status ha with h | h <;> simp [h]
  | ok u =>
    cases hg : authorize ["admin", "manager"] (some u) with
    | error res =>
      have hres : createTask L ctx db req body = (res, db) := by
        simp only [createTask, ha, hg]
      left
      rw [hres]
      refine ⟨?_, rfl⟩
      rcases authorize_error_status hg with h | h <;> simp [h]
    | ok x =>
      have hres : createTask L ctx db req body = createTaskHandler L ctx db u body := by
        simp only [createTask, ha, hg]
      rw [hres]
      rcases createTaskHandler_outcome L ctx db u body with h | ⟨dueDate, hv, hd, hh⟩
      · exact Or.inl h
      · exact Or.inr ⟨u, dueDate, rfl, hv, hd, hh⟩

/-! ## The lifecycle invariant -/

/-- C9: on every task reachable by a successful create request followed by any
finite sequence of successful updates, `completedAt` is present iff the status
is `completed`. -/
theorem completedAt_iff_completed (L : Lib) (t : Task) (h : Reachable L t) :
    t.completedAt.isSome = true ↔ t.status = "completed" := by
  induction h with
  | create ctx db req body msg created hc =>
    rcases createTask_outcome L ctx db req body with ⟨hne, -⟩ | ⟨u, dueDate, -, -, -, hres⟩
    · rw [hc] at hne
      exact absurd rfl hne
    · rw [hres] at hc
      simp only [Response.mk.injEq, Body.taskMessage.injEq, true_and] at hc
      obtain ⟨-, rfl⟩ := hc
      simp [populate, newTask]
  | update ctx db req id body t t' _ ht hok ht' ih =>
    obtain ⟨t'', hf, hl⟩ := updateTask_success_lifecycle ht hok
    rw [ht'] at hf
    have hf' : t' = t'' := by
      injection hf with hf
      injection hf
    subst hf'
    simp only [lifecycle, Prod.mk.injEq] at hl
    obtain ⟨-, -, hst, hca⟩ := hl
    cases hb : body.status with
    | none =>
      rw [hb] at hst hca
      have hst' : t'.status = t.status := hst
      have hca' : t'.completedAt = t.completedAt := hca
      rw [hst', hca']
      exact ih
    | some s =>
      rw [hb] at hst hca
      have hst' : t'.status = s := hst
      rw [hst', hca]
      by_cases h1 : s = "completed"
      · simp [completedAtAfter, h1]
      · by_cases h2 : t.status = "completed"
        · simp [completedAtAfter, h1, h2]
        · have hnone : t.completedAt = none := by
            cases hc : t.completedAt with
            | none => rfl
            | some d =>
              have := ih.mp (by simp [hc])
              exact absurd this h2
          simp [completedAtAfter, h1, h2, hnone]

/-- The manager creates a task and John completes it: the result is reachable
and satisfies the invariant. -/
theorem completedAt_iff_completed_witness :
    Reachable sampleLib completedTask ∧
    (completedTask.completedAt.isSome = true ↔ completedTask.status = "completed") :=
  have hreach : Reachable sampleLib completedTask :=
    Reachable.update { now := 9500, freshId := "0000000000000000000000f4" } createdDb
      (requestOf johnUser) "0000000000000000000000f3" { status := some "completed" }
      createdTask completedTask
      (Reachable.create sampleCtx sampleDb (requestOf managerUser) sampleBody
        "Task created successfully" (populate createdDb createdTask) rfl)
      rfl rfl rfl
  ⟨hreach, completedAt_iff_completed sampleLib completedTask hreach⟩


/-! ## The created document -/

/-- C11, as amended: after a successful create request the document in the
response is the one appended to the collection; it has status `pending`
whatever `status` the body carries, `createdBy` equal to the id of the actor
whatever `createdBy` the body carries, the given priority or `medium` when none
is given, no tags when none are given and otherwise the given tags each trimmed
of surrounding white space, no `completedAt`, the trimmed title and description
of the body, the object id its `assignedTo` string denotes and the date its
`dueDate` string denotes. -/
theorem createTask_fields (L : Lib) (ctx : Ctx) (db : Db) (req : Req) (body : TaskBody)
    (msg : String) (created : PopulatedTask) (db' : Db)
    (h : createTask L ctx db req body = (⟨201, .taskMessage msg created⟩, db')) :
    ∃ u dueDate, authenticateToken L db req = .ok u ∧
      L.parseDate (toStr body.dueDate) = some dueDate ∧
      db'.tasks = db.tasks ++ [created.task] ∧
      created.task.status = "pending" ∧
      created.task.createdBy = u._id ∧
      created.task.priority = body.priority.getD "medium" ∧
      (body.tags = none → created.task.tags = []) ∧
      (∀ items, body.tags = some (.array items) → created.task.tags = items.map trim) ∧
      created.task.completedAt = none ∧
      created.task.title = trim (toStr body.title) ∧
      created.task.description = trim (toStr body.description) ∧
      created.task.assignedTo = castObjectId (toStr body.assignedTo) ∧
      created.task.dueDate = dueDate := by
  rcases createTask_outcome L ctx db req body with ⟨hne, -⟩ | ⟨u, dueDate, ha, -, hd, hres⟩
  · rw [h] at hne
    exact absurd rfl hne
  · rw [hres] at h
    simp only [Prod.mk.injEq, Response.mk.injEq, Body.taskMessage.injEq, true_and] at h
    obtain ⟨⟨-, rfl⟩, rfl⟩ := h
    refine ⟨u, dueDate, ha, hd, rfl, rfl, rfl, rfl, ?_, ?_, rfl, rfl, rfl, rfl, rfl⟩
    · intro ht
      simp [populate, newTask, validateCreate, ht, castTags]
    · intro items ht
      simp [populate, newTask, validateCreate, ht, castTags]

/-- The manager's create request with `sampleBody` yields `createdTask`. -/
theorem createTask_fields_witness :
    ∃ u dueDate, authenticateToken sampleLib sampleDb (requestOf managerUser) = .ok u ∧
      sampleLib.parseDate (toStr sampleBody.dueDate) = some dueDate ∧
      createdDb.tasks = sampleDb.tasks ++ [(populate createdDb createdTask).task] ∧
      (populate createdDb createdTask).task.status = "pending" ∧
      (populate createdDb createdTask).task.createdBy = u._id ∧
      (populate createdDb createdTask).task.priority = sampleBody.priority.getD "medium" ∧
      (sampleBody.tags = none → (populate createdDb createdTask).task.tags = []) ∧
      (∀ items, sampleBody.tags = some (.array items) →
        (populate createdDb createdTask).task.tags = items.map trim) ∧
      (populate createdDb createdTask).task.completedAt = none ∧
      (populate createdDb createdTask).task.title = trim (toStr sampleBody.title) ∧
      (populate createdDb createdTask).task.description = trim (toStr sampleBody.description) ∧
      (populate createdDb createdTask).task.assignedTo =
        castObjectId (toStr sampleBody.assignedTo) ∧
      (populate createdDb createdTask).task.dueDate = dueDate :=
  createTask_fields sampleLib sampleCtx sampleDb (requestOf managerUser) sampleBody
    "Task created successfully" (populate createdDb createdTask) createdDb rfl

/-- C11, as stated, fails: the manager's successful create request with the tag
`" backend "` and the title `"  Plan the release  "` stores the tag `"backend"`
and the title `"Plan the release"`, not the given values. -/
theorem created_title_and_tags_are_trimmed :
    ∃ created db',
      createTask sampleLib sampleCtx sampleDb (requestOf managerUser) paddedBody =
        (⟨201, .taskMessage "Task created successfully" created⟩, db') ∧
      paddedBody.tags = some (.array [" backend "]) ∧
      created.task.tags = ["backend"] ∧
      created.task.tags ≠ [" backend "] ∧
      paddedBody.title = some "  Plan the release  " ∧
      created.task.title = "Plan the release" :=
  ⟨_, _, rfl, rfl, rfl, by decide, rfl, rfl⟩


/-! ## A create request for a user that does not exist -/

/-- A string has at least as many UTF-16 code units as characters. -/
theorem length_le_jsLength (s : String) : s.length ≤ jsLength s := by
  have key : ∀ cs : List Char,
      cs.length ≤ (cs.map (fun c => if 0x10000 ≤ c.toNat then 2 else 1)).sum := by
    intro cs
    induction cs with
    | nil => simp
    | cons c cs ih =>
      simp only [List.length_cons, List.map_cons, List.sum_cons]
      split <;> omega
  exact key s.data

/-- A string accepted by `isMongoId` has twenty-four characters. -/
theorem length_of_isMongoId {s : String} (h : isMongoId s = true) : s.length = 24 := by
  unfold isMongoId at h
  simp only [Bool.and_eq_true, beq_iff_eq] at h
  exact h.2

/-- The cast of a string accepted by `isMongoId`: the id it spells when it is
twenty-four hexadecimal digits, an error when it carries the marker `0x` or
`0h`. -/
theorem tryCastObjectId_of_isMongoId {L : Lib} {s : String} (h : isMongoId s = true) :
    tryCastObjectId L s = if isObjectIdHex s then some (castObjectId s) else none := by
  have hlen := length_of_isMongoId h
  have hjs := length_le_jsLength s
  have hne : (jsLength s == 12) = false := by
    rw [beq_eq_false_iff_ne]
    omega
  unfold tryCastObjectId
  rw [hne]
  simp

/-- The user lookup on a string accepted by `isMongoId`. -/
theorem findUserById_of_isMongoId (L : Lib) (db : Db) {s : String} (h : isMongoId s = true) :
    findUserById L db s =
      if isObjectIdHex s then some (findUser db (castObjectId s)) else none := by
  unfold findUserById
  rw [tryCastObjectId_of_isMongoId h]
  split <;> rfl

/-- A create body that passes the validation chains carries an `assignedTo`
accepted by `isMongoId`. -/
theorem isMongoId_of_validCreate {L : Lib} {b : TaskBody} (hv : (validateCreate L b).1 = []) :
    isMongoId (toStr b.assignedTo) = true := by
  simp only [validateCreate, List.append_eq_nil, check] at hv
  by_contra hc
  simp [hc] at hv

/-- For an admin or a manager and a create body that passes the validation
chains, the create route stores nothing when `assignedTo` references no
existing user; it answers 400 `Assigned user not found` when `assignedTo` is a
well-formed object id (twenty-four hexadecimal digits) that no user has, and
500 `Server error` when `assignedTo` passed validation without being one (the
form with the marker `0x` or `0h`), the lookup throwing on the cast. -/
theorem create_unknown_assignee (L : Lib) (ctx : Ctx) (db : Db) (req : Req) (u : User)
    (body : TaskBody)
    (hauth : authenticateToken L db req = .ok u)
    (hrole : u.role = "admin" ∨ u.role = "manager")
    (hvalid : (validateCreate L body).1 = []) :
    (isObjectIdHex (toStr body.assignedTo) = true →
      findUser db (castObjectId (toStr body.assignedTo)) = none →
      createTask L ctx db req body = (⟨400, .message "Assigned user not found"⟩, db)) ∧
    (isObjectIdHex (toStr body.assignedTo) = false →
      createTask L ctx db req body = (⟨500, .message "Server error"⟩, db)) := by
  have hgate : authorize ["admin", "manager"] (some u) = .ok () := by
    rcases hrole with h | h <;> simp [authorize, h]
  have hfind := findUserById_of_isMongoId L db (isMongoId_of_validCreate hvalid)
  constructor
  · intro hwell hmissing
    rw [if_pos hwell, hmissing] at hfind
    have hm : findUserById L db (toStr (validateCreate L body).2.assignedTo) = some none :=
      hfind
    simp only [createTask, hauth, hgate, createTaskHandler, hvalid, hm]
    rfl
  · intro hill
    rw [if_neg (by simp [hill])] at hfind
    have hm : findUserById L db (toStr (validateCreate L body).2.assignedTo) = none := hfind
    simp only [createTask, hauth, hgate, createTaskHandler, hvalid, hm]
    rfl

/-- C12, the code at the failing input: the manager's create request carries the
`assignedTo` `0x00000000000000000000c2`, which the validation chains accept and
which is the id of no user; the lookup throws on the cast and the answer is 500
`Server error`, not 400, whereas for the well-formed id `...ee` that no user
has the answer is 400 `Assigned user not found`.  Nothing is stored in either
case. -/
theorem create_prefixed_assignee_is_server_error :
    authenticateToken sampleLib sampleDb (requestOf managerUser) = .ok managerUser ∧
    managerUser.role = "manager" ∧
    isMongoId "0x00000000000000000000c2" = true ∧
    (validateCreate sampleLib { sampleBody with assignedTo := some "0x00000000000000000000c2" }).1
      = [] ∧
    (∀ u ∈ sampleDb.users, u._id ≠ "0x00000000000000000000c2") ∧
    createTask sampleLib sampleCtx sampleDb (requestOf managerUser)
      { sampleBody with assignedTo := some "0x00000000000000000000c2" } =
      (⟨500, .message "Server error"⟩, sampleDb) ∧
    (createTask sampleLib sampleCtx sampleDb (requestOf managerUser)
      { sampleBody with assignedTo := some "0x00000000000000000000c2" }).1.status ≠ 400 ∧
    createTask sampleLib sampleCtx sampleDb (requestOf managerUser)
      { sampleBody with assignedTo := some "0000000000000000000000ee" } =
      (⟨400, .message "Assigned user not found"⟩, sampleDb) :=
  ⟨rfl, rfl, rfl, rfl, by decide, rfl, by decide, rfl⟩

/-! ## No partial writes -/

/-- C13: when the update route answers 400 (validation error or assigned user
not found), 403 or 404, the database after the request is the database before
it, so every stored task is found unchanged. -/
theorem failed_update_writes_nothing (L : Lib) (ctx : Ctx) (db : Db) (req : Req)
    (id : String) (body : TaskBody)
    (hfail : (updateTask L ctx db req id body).1.status = 400 ∨
      (updateTask L ctx db req id body).1.status = 403 ∨
      (updateTask L ctx db req id body).1.status = 404) :
    (updateTask L ctx db req id body).2 = db ∧
    ∀ id' t, findTask db id' = some t →
      findTask (updateTask L ctx db req id body).2 id' = some t := by
  have hdb : (updateTask L ctx db req id body).2 = db := by
    rcases updateTask_outcome L ctx db req id body with ⟨-, hdb⟩ | ⟨u, t, updated, -, -, -, -, hres⟩
    · exact hdb
    · rw [hres] at hfail
      simp at hfail
  refine ⟨hdb, ?_⟩
  intro id' t ht
  rw [hdb]
  exact ht

/-- John's update with a valid title and an invalid status changes nothing. -/
theorem failed_update_writes_nothing_witness :
    (updateTask sampleLib sampleCtx sampleDb (requestOf johnUser) "0000000000000000000000f1"
      { title := some "Renamed", status := some "done" }).1.status = 400 ∧
    (updateTask sampleLib sampleCtx sampleDb (requestOf johnUser) "0000000000000000000000f1"
      { title := some "Renamed", status := some "done" }).2 = sampleDb :=
  ⟨rfl,
    (failed_update_writes_nothing sampleLib sampleCtx sampleDb (requestOf johnUser)
      "0000000000000000000000f1" { title := some "Renamed", status := some "done" }
      (Or.inl rfl)).1⟩

/-! ## Order of the reassignment checks -/

/-- An update body that passes validation and carries `assignedTo` carries one
accepted by `isMongoId`. -/
theorem isMongoId_of_validUpdate {L : Lib} {b : TaskBody} {s : String}
    (hs : b.assignedTo = some s) (hv : (validateUpdate L b).1 = []) : isMongoId s = true := by
  simp only [validateUpdate, List.append_eq_nil, hs, checkOptional, check] at hv
  by_contra hc
  simp [hc] at hv

/-- C14, as amended: for an actor who passes the task-level gate and an update
body that passes format validation and whose `assignedTo` is a well-formed
object id (twenty-four hexadecimal digits) that references no existing user,
the update fails with 400 `Assigned user not found` when the actor is an admin
or a manager, and with 403 when the actor has any other role: the reassignment
permission check comes before the user lookup.  The database is unchanged in
both cases. -/
theorem update_unknown_assignee (L : Lib) (ctx : Ctx) (db : Db) (req : Req) (u : User)
    (id : String) (t : Task) (body : TaskBody) (s : String)
    (hauth : authenticateToken L db req = .ok u)
    (hgate : canAccessTask L db u id = .ok t)
    (hvalid : (validateUpdate L body).1 = [])
    (hs : body.assignedTo = some s)
    (hwell : isObjectIdHex s = true)
    (hmissing : findUser db (castObjectId s) = none) :
    ((u.role = "admin" ∨ u.role = "manager") →
      updateTask L ctx db req id body = (⟨400, .message "Assigned user not found"⟩, db)) ∧
    (¬ (u.role = "admin" ∨ u.role = "manager") →
      updateTask L ctx db req id body =
        (⟨403, .message "Only admins and managers can reassign tasks"⟩, db)) := by
  have htr := truthy_assignedTo_of_valid hs hvalid
  have hfind := findUserById_of_isMongoId L db (isMongoId_of_validUpdate hs hvalid)
  have hto : toStr (validateUpdate L body).2.assignedTo = s := by
    rw [validateUpdate_assignedTo, hs]
    rfl
  refine ⟨?_, ?_⟩
  · intro hrole
    have hin : (["admin", "manager"].contains u.role) = true := by
      rcases hrole with h | h <;> rw [h] <;> decide
    rw [if_pos hwell, hmissing] at hfind
    simp only [updateTask, hauth, hgate, updateTaskHandler, hvalid, htr, hin, hto, hfind]
    rfl
  · intro hrole
    have hin : (["admin", "manager"].contains u.role) = false := by
      simp only [not_or] at hrole
      simp [hrole.1, hrole.2]
    simp only [updateTask, hauth, hgate, updateTaskHandler, hvalid, htr, hin]
    rfl

/-- The manager reassigns the sample task to a well-formed id that no user
has. -/
theorem update_unknown_assignee_witness :
    authenticateToken sampleLib sampleDb (requestOf managerUser) = .ok managerUser ∧
    canAccessTask sampleLib sampleDb managerUser "0000000000000000000000f1" = .ok sampleTask ∧
    isObjectIdHex "0000000000000000000000ee" = true ∧
    findUser sampleDb (castObjectId "0000000000000000000000ee") = none ∧
    updateTask sampleLib sampleCtx sampleDb (requestOf managerUser) "0000000000000000000000f1"
      { assignedTo := some "0000000000000000000000ee" } =
      (⟨400, .message "Assigned user not found"⟩, sampleDb) :=
  ⟨rfl, rfl, rfl, rfl,
    (update_unknown_assignee sampleLib sampleCtx sampleDb (requestOf managerUser) managerUser
      "0000000000000000000000f1" sampleTask { assignedTo := some "0000000000000000000000ee" }
      "0000000000000000000000ee" rfl rfl rfl rfl rfl rfl).1 (Or.inr rfl)⟩

/-- C14, as stated, fails: John, of role `user`, passes the task-level gate on
the sample task and sends a well-formed `assignedTo` that references no user;
the answer is the authorization error 403, not `Assigned user not found`. -/
theorem user_unknown_assignee_is_forbidden :
    authenticateToken sampleLib sampleDb (requestOf johnUser) = .ok johnUser ∧
    canAccessTask sampleLib sampleDb johnUser "0000000000000000000000f1" = .ok sampleTask ∧
    (validateUpdate sampleLib { assignedTo := some "0000000000000000000000ee" }).1 = [] ∧
    findUser sampleDb (castObjectId "0000000000000000000000ee") = none ∧
    updateTask sampleLib sampleCtx sampleDb (requestOf johnUser) "0000000000000000000000f1"
      { assignedTo := some "0000000000000000000000ee" } =
      (⟨403, .message "Only admins and managers can reassign tasks"⟩, sampleDb) :=
  ⟨rfl, rfl, rfl, rfl, rfl⟩

/-- C15, the code at the failing input: John, of role `user` and assignee of the
sample task, sends an update with a new title and with `assignedTo` equal to the
task's current assignee; the route answers 403 `Only admins and managers can
reassign tasks` and nothing is written. -/
theorem unchanged_assignee_is_rejected :
    authenticateToken sampleLib sampleDb (requestOf johnUser) = .ok johnUser ∧
    johnUser.role = "user" ∧
    canAccessTask sampleLib sampleDb johnUser "0000000000000000000000f1" = .ok sampleTask ∧
    castObjectId "0000000000000000000000c1" = sampleTask.assignedTo ∧
    updateTask sampleLib sampleCtx sampleDb (requestOf johnUser) "0000000000000000000000f1"
      { title := some "Fix the authentication bug",
        assignedTo := some "0000000000000000000000c1" } =
      (⟨403, .message "Only admins and managers can reassign tasks"⟩, sampleDb) :=
  ⟨rfl, rfl, rfl, rfl, rfl⟩


/-! ## Deletion by an administrator -/

/-- A document left by `removeTask` was in the collection. -/
theorem mem_of_mem_removeTask {id : String} {l : List Task} {t : Task}
    (h : t ∈ removeTask id l) : t ∈ l := by
  induction l with
  | nil => simp [removeTask] at h
  | cons x xs ih =>
    by_cases hx : x._id = id
    · simp only [removeTask, hx, beq_self_eq_true, if_true] at h
      exact List.mem_cons_of_mem _ h
    · have hb : (x._id == id) = false := by simpa using hx
      simp only [removeTask, hb, Bool.false_eq_true, if_false, List.mem_cons] at h
      rcases h with h | h
      · exact h ▸ List.mem_cons_self _ _
      · exact List.mem_cons_of_mem _ (ih h)

/-- In a collection without duplicate ids, `removeTask` leaves no document with
the removed id. -/
theorem removeTask_no_id {id : String} {l : List Task}
    (hnd : (l.map (fun t => t._id)).Nodup) :
    ∀ t ∈ removeTask id l, t._id ≠ id := by
  induction l with
  | nil => simp [removeTask]
  | cons x xs ih =>
    simp only [List.map_cons, List.nodup_cons, List.mem_map, not_exists, not_and] at hnd
    by_cases hx : x._id = id
    · simp only [removeTask, hx, beq_self_eq_true, if_true]
      intro t ht heq
      exact hnd.1 t ht (heq.trans hx.symm)
    · have hb : (x._id == id) = false := by simpa using hx
      simp only [removeTask, hb, Bool.false_eq_true, if_false, List.mem_cons]
      rintro t (rfl | ht)
      · exact hx
      · exact ih hnd.2 t ht

/-- A lookup finds nothing when no document has the id. -/
theorem findTask_none_of_no_id {db : Db} {id : ObjectId}
    (h : ∀ t ∈ db.tasks, t._id ≠ id) : findTask db id = none := by
  unfold findTask
  rw [List.find?_eq_none]
  intro t ht
  simpa using h t ht

/-- The documents of a page are documents of the collection. -/
theorem mem_of_mem_pageTasks {L : Lib} {db : Db} {q : Query} {skip limit : Int} {t : Task}
    (h : t ∈ pageTasks L db q skip limit) : t ∈ db.tasks := by
  unfold pageTasks sortByCreatedAtDesc findTasks at h
  have h1 := List.mem_of_mem_drop (List.mem_of_mem_take h)
  have h2 := (List.perm_insertionSort _ _).mem_iff.mp h1
  exact (List.mem_filter.mp h2).1

/-- A response of the list route with a page carries documents of the
collection. -/
theorem listTasks_page_mem {L : Lib} {db : Db} {req : Req} {params : ListParams}
    {tasks : List PopulatedTask} {pagination : Pagination}
    (h : (listTasks L db req params).1 = ⟨200, .taskPage tasks pagination⟩) :
    ∀ pt ∈ tasks, pt.task ∈ db.tasks := by
  unfold listTasks at h
  cases ha : authenticateToken L db req with
  | error res =>
    rw [ha] at h
    simp only [] at h
    rcases authenticateToken_error_status ha with hs | hs <;> rw [h] at hs <;> simp at hs
  | ok u =>
    rw [ha] at h
    simp only [listTasksHandler] at h
    split at h
    · simp at h
    · simp only [Response.mk.injEq, Body.taskPage.injEq, true_and] at h
      obtain ⟨rfl, -⟩ := h
      intro pt hpt
      rw [List.mem_map] at hpt
      obtain ⟨t, ht, rfl⟩ := hpt
      exact mem_of_mem_pageTasks ht

/-- C16: in a collection without duplicate ids, the delete route answers 200 to
an admin for the id of a stored task `t`; afterwards `t` is not stored, the
lookup by its id finds nothing, the read route answers 404 for that id to every
authenticated actor, no page of the list route carries a document with that id,
and no filter over the collection (a calendar query included) yields one. -/
theorem admin_delete_removes (L : Lib) (db : Db) (req : Req) (u : User) (id : String)
    (t : Task)
    (hauth : authenticateToken L db req = .ok u) (hrole : u.role = "admin")
    (ht : findTaskById L db id = some (some t)) (hunique : uniqueIds db) :
    deleteTask L db req id =
      (⟨200, .message "Task deleted successfully"⟩, findByIdAndDelete db t._id) ∧
    t ∉ (findByIdAndDelete db t._id).tasks ∧
    findTask (findByIdAndDelete db t._id) t._id = none ∧
    findTaskById L (findByIdAndDelete db t._id) id = some none ∧
    (∀ req' u', authenticateToken L (findByIdAndDelete db t._id) req' = .ok u' →
      getTask L (findByIdAndDelete db t._id) req' id =
        (⟨404, .message "Task not found"⟩, findByIdAndDelete db t._id)) ∧
    (∀ req' params tasks pagination,
      (listTasks L (findByIdAndDelete db t._id) req' params).1 =
          ⟨200, .taskPage tasks pagination⟩ →
        ∀ pt ∈ tasks, pt.task._id ≠ t._id) ∧
    (∀ q : Task → Bool, ∀ t' ∈ (findByIdAndDelete db t._id).tasks.filter q,
      t'._id ≠ t._id) := by
  obtain ⟨hcast, -⟩ := findTaskById_id ht
  have hno : ∀ t' ∈ (findByIdAndDelete db t._id).tasks, t'._id ≠ t._id :=
    removeTask_no_id hunique
  have hnone : findTask (findByIdAndDelete db t._id) t._id = none := findTask_none_of_no_id hno
  have hnone' : findTaskById L (findByIdAndDelete db t._id) id = some none := by
    unfold findTaskById
    rw [hcast, Option.map_some', hnone]
  have hgate : canAccessTask L db u id = .ok t := by
    rw [canAccessTask_of_found ht, if_pos (Or.inl hrole)]
  have hadmin : authorize ["admin"] (some u) = .ok () := by
    simp [authorize, hrole]
  refine ⟨?_, ?_, hnone, hnone', ?_, ?_, ?_⟩
  · simp only [deleteTask, hauth, hgate, hadmin, deleteTaskHandler, hcast]
  · intro hmem
    exact hno t hmem rfl
  · intro req' u' hauth'
    simp only [getTask, hauth', canAccessTask_of_missing hnone']
  · intro req' params tasks pagination hres pt hpt
    exact hno _ (listTasks_page_mem hres pt hpt)
  · intro q t' ht'
    exact hno t' (List.mem_filter.mp ht').1

/-- The administrator deletes the sample task. -/
theorem admin_delete_removes_witness :
    authenticateToken sampleLib sampleDb (requestOf adminUser) = .ok adminUser ∧
    findTaskById sampleLib sampleDb "0000000000000000000000f1" = some (some sampleTask) ∧
    uniqueIds sampleDb ∧
    deleteTask sampleLib sampleDb (requestOf adminUser) "0000000000000000000000f1" =
      (⟨200, .message "Task deleted successfully"⟩,
        findByIdAndDelete sampleDb sampleTask._id) ∧
    findTaskById sampleLib (findByIdAndDelete sampleDb sampleTask._id)
      "0000000000000000000000f1" = some none :=
  have hunique : uniqueIds sampleDb := by
    unfold uniqueIds
    decide
  have h := admin_delete_removes sampleLib sampleDb (requestOf adminUser) adminUser
    "0000000000000000000000f1" sampleTask rfl rfl rfl hunique
  ⟨rfl, rfl, hunique, h.1, h.2.2.2.1⟩

/-! ## Composition of the list filters -/

/-- A status or priority parameter that passes its chain is absent or truthy. -/
theorem truthy_of_checkOptional_mem {v : Option String} (values : List String)
    {param msg : String} (hne : "" ∉ values)
    (h : checkOptional v (fun s => values.contains s) param msg = []) :
    v = none ∨ truthy v = true := by
  cases v with
  | none => exact Or.inl rfl
  | some s =>
    right
    simp only [checkOptional, check] at h
    split at h
    · rename_i hc
      have hmem : s ∈ values := by simpa using hc
      have : s ≠ "" := fun e => hne (e ▸ hmem)
      simpa [truthy] using this
    · cases h

/-- The filter object of the list route, field by field. -/
theorem buildListQuery_fields (u : User) (params : ListParams) :
    buildListQuery u params =
      { assignedTo := if u.role = "user" then some u._id else none
        status := if truthy params.status = true then params.status else none
        priority := if truthy params.priority = true then params.priority else none
        search := if truthy params.search = true then params.search else none } := by
  unfold buildListQuery
  by_cases hr : u.role = "user" <;> by_cases hs : truthy params.status = true <;>
    by_cases hp : truthy params.priority = true <;>
    by_cases hq : truthy params.search = true <;> simp [hr, hs, hp, hq]

/-- The visibility condition of the filter object. -/
theorem fieldMatches_scope (u : User) (t : Task) :
    fieldMatches (if u.role = "user" then some u._id else none) t.assignedTo = true ↔
      (u.role = "user" → t.assignedTo = u._id) := by
  by_cases hr : u.role = "user" <;> simp [hr, fieldMatches]

/-- An equality condition set from a truthy parameter. -/
theorem fieldMatches_truthy (v : Option String) (x : String) :
    fieldMatches (if truthy v = true then v else none) x = true ↔
      (truthy v = false ∨ v = some x) := by
  cases v with
  | none => simp [truthy, fieldMatches]
  | some s =>
    by_cases hs : truthy (some s) = true
    · simp only [hs, if_true, fieldMatches, beq_iff_eq, Bool.true_eq_false, false_or,
        Option.some.injEq]
      exact eq_comm
    · have hf : truthy (some s) = false := by simpa using hs
      simp [hf, fieldMatches]

/-- The search condition set from a truthy parameter. -/
theorem searchMatches_truthy (L : Lib) (v : Option String) (t : Task) :
    (match (if truthy v = true then v else none) with
      | none => true
      | some s => L.regexMatchI s t.title || L.regexMatchI s t.description) = true ↔
      (truthy v = false ∨ L.regexMatchI (toStr v) t.title = true ∨
        L.regexMatchI (toStr v) t.description = true) := by
  cases v with
  | none => simp [truthy]
  | some s =>
    by_cases hs : truthy (some s) = true
    · simp [hs, toStr]
    · have hf : truthy (some s) = false := by simpa using hs
      simp [hf]

/-- C17: for every actor and every combination of query parameters, the query
of the list route matches a task iff the task passes the visibility scoping of
the role (role `user`: assigned to the actor) and no status filter is given or
the status equals it, and no priority filter is given or the priority equals
it, and no search is given or the search pattern matches the title or the
description.  A parameter counts as given when it is a non-empty string (the
handler's `if (status)`); for a request that passes the validation chains a
status or priority is given exactly when it is present. -/
theorem listQuery_composition (L : Lib) (u : User) (params : ListParams) (t : Task) :
    ((buildListQuery u params).matches L t = true ↔
      (u.role = "user" → t.assignedTo = u._id) ∧
      (truthy params.status = false ∨ params.status = some t.status) ∧
      (truthy params.priority = false ∨ params.priority = some t.priority) ∧
      (truthy params.search = false ∨
        L.regexMatchI (toStr params.search) t.title = true ∨
        L.regexMatchI (toStr params.search) t.description = true)) ∧
    (validateList params = [] →
      ((buildListQuery u params).matches L t = true ↔
        (u.role = "user" → t.assignedTo = u._id) ∧
        (params.status = none ∨ params.status = some t.status) ∧
        (params.priority = none ∨ params.priority = some t.priority) ∧
        (truthy params.search = false ∨
          L.regexMatchI (toStr params.search) t.title = true ∨
          L.regexMatchI (toStr params.search) t.description = true))) := by
  have main : ((buildListQuery u params).matches L t = true ↔
      (u.role = "user" → t.assignedTo = u._id) ∧
      (truthy params.status = false ∨ params.status = some t.status) ∧
      (truthy params.priority = false ∨ params.priority = some t.priority) ∧
      (truthy params.search = false ∨
        L.regexMatchI (toStr params.search) t.title = true ∨
        L.regexMatchI (toStr params.search) t.description = true)) := by
    rw [buildListQuery_fields]
    simp only [Query.matches, Bool.and_eq_true, fieldMatches_scope, fieldMatches_truthy,
      searchMatches_truthy, and_assoc]
  refine ⟨main, ?_⟩
  intro hv
  rw [main]
  simp only [validateList, List.append_eq_nil] at hv
  obtain ⟨⟨⟨⟨-, -⟩, hst⟩, hpr⟩, -⟩ := hv
  have h1 := truthy_of_checkOptional_mem statusValues (by decide) hst
  have h2 := truthy_of_checkOptional_mem priorityValues (by decide) hpr
  have e1 : (truthy params.status = false ∨ params.status = some t.status) ↔
      (params.status = none ∨ params.status = some t.status) := by
    rcases h1 with h | h
    · simp [h, truthy]
    · simp only [h, Bool.true_eq_false, false_or]
      constructor
      · exact Or.inr
      · rintro (h' | h')
        · rw [h'] at h
          simp [truthy] at h
        · exact h'
  have e2 : (truthy params.priority = false ∨ params.priority = some t.priority) ↔
      (params.priority = none ∨ params.priority = some t.priority) := by
    rcases h2 with h | h
    · simp [h, truthy]
    · simp only [h, Bool.true_eq_false, false_or]
      constructor
      · exact Or.inr
      · rintro (h' | h')
        · rw [h'] at h
          simp [truthy] at h
        · exact h'
  rw [e1, e2]


/-- John filters by the status of his task. -/
theorem listQuery_composition_witness :
    validateList { status := some "pending" } = [] ∧
    ((buildListQuery johnUser { status := some "pending" }).matches sampleLib sampleTask = true ↔
      (johnUser.role = "user" → sampleTask.assignedTo = johnUser._id) ∧
      (({ status := some "pending" } : ListParams).status = none ∨
        ({ status := some "pending" } : ListParams).status = some sampleTask.status) ∧
      (({ status := some "pending" } : ListParams).priority = none ∨
        ({ status := some "pending" } : ListParams).priority = some sampleTask.priority) ∧
      (truthy ({ status := some "pending" } : ListParams).search = false ∨
        sampleLib.regexMatchI (toStr ({ status := some "pending" } : ListParams).search)
          sampleTask.title = true ∨
        sampleLib.regexMatchI (toStr ({ status := some "pending" } : ListParams).search)
          sampleTask.description = true)) :=
  ⟨rfl, (listQuery_composition sampleLib johnUser { status := some "pending" } sampleTask).2 rfl⟩

/-! ## The search filter -/

/-- On a pattern without dots, `matchHere` is the case-insensitive prefix test. -/
theorem matchHere_literal (p : List Char) (hp : ∀ c ∈ p, c ≠ '.') (text : List Char) :
    matchHere p text = isPrefixIgnoreCase p text := by
  induction p generalizing text with
  | nil => cases text <;> rfl
  | cons c cs ih =>
    cases text with
    | nil => rfl
    | cons d ds =>
      have hc : c ≠ '.' := hp c (List.mem_cons_self _ _)
      have hcs : ∀ x ∈ cs, x ≠ '.' := fun x hx => hp x (List.mem_cons_of_mem _ hx)
      simp only [matchHere, isPrefixIgnoreCase, ih hcs]
      have : (c == '.') = false := by simpa using hc
      simp [this]

/-- On a pattern without dots, `searchPattern` is the case-insensitive
substring test. -/
theorem searchPattern_literal (p : List Char) (hp : ∀ c ∈ p, c ≠ '.') (text : List Char) :
    searchPattern p text = occursIgnoreCase p text := by
  induction text with
  | nil => simp only [searchPattern, occursIgnoreCase, matchHere_literal p hp]
  | cons d ds ih => simp only [searchPattern, occursIgnoreCase, matchHere_literal p hp, ih]

/-- A literal pattern has no dot. -/
theorem no_dot_of_isLiteralPattern {s : String} (h : isLiteralPattern s = true) :
    ∀ c ∈ s.data, c ≠ '.' := by
  intro c hc hdot
  unfold isLiteralPattern at h
  rw [List.all_eq_true] at h
  have := h c hc
  rw [hdot] at this
  revert this
  decide

/-- The sample pattern library matches a literal pattern as a case-insensitive
substring. -/
theorem patternLib_literal (p text : String) (hp : isLiteralPattern p = true) :
    patternLib.regexMatchI p text = containsIgnoreCase p text :=
  searchPattern_literal p.data (no_dot_of_isLiteralPattern hp) text.data

/-- C18, the code at the failing input: the search string `.` is handed to
`$regex` as a pattern, where the dot matches any character, so the filter
matches the sample task although neither its title nor its description
contains a dot, and the list route returns the task to John, its assignee. -/
theorem search_dot_matches_without_dot :
    containsIgnoreCase "." sampleTask.title = false ∧
    containsIgnoreCase "." sampleTask.description = false ∧
    (buildListQuery adminUser { search := some "." }).matches patternLib sampleTask = true ∧
    (buildListQuery johnUser { search := some "." }).matches patternLib sampleTask = true ∧
    ∃ tasks pagination,
      listTasks patternLib sampleDb (requestOf johnUser) { search := some "." } =
        (⟨200, .taskPage tasks pagination⟩, sampleDb) ∧
      populate sampleDb sampleTask ∈ tasks :=
  ⟨rfl, rfl, rfl, rfl, _, _, rfl, by decide⟩

/-! ## Pages of the list route -/

/-- The response of the list route to an authenticated, valid request. -/
theorem listTasks_valid {L : Lib} {db : Db} {req : Req} {u : User} {params : ListParams}
    (hauth : authenticateToken L db req = .ok u) (hvalid : validateList params = []) :
    listTasks L db req params =
      (⟨200, .taskPage
          ((pageTasks L db (buildListQuery u params)
            ((pageOf params - 1) * limitOf params) (limitOf params)).map (populate db))
          (paginationOf (pageOf params) (limitOf params)
            (countDocuments L db (buildListQuery u params)))⟩, db) := by
  simp only [listTasks, hauth, listTasksHandler, hvalid]
  rfl

/-- The skip of page `p` with page size `l`, as a natural number. -/
theorem skip_toNat {p l : Nat} (hp : 1 ≤ p) :
    ((((p : Int) - 1) * (l : Int)).toNat) = (p - 1) * l := by
  have h : ((p : Int) - 1) * (l : Int) = (((p - 1) * l : Nat) : Int) := by
    push_cast [Nat.cast_sub hp]
    ring
  rw [h, Int.toNat_natCast]

/-- The window of a page: length and elements. -/
theorem window_spec {α : Type} (xs : List α) (skip limit : Nat) :
    ((xs.drop skip).take limit).length = min limit (xs.length - skip) ∧
    ∀ i, i < limit → ((xs.drop skip).take limit)[i]? = xs[skip + i]? := by
  constructor
  · simp
  · intro i hi
    rw [List.getElem?_take_of_lt hi, List.getElem?_drop]

/-- C19: for an authenticated, valid list request with effective page `p ≥ 1`
and effective limit `l`, the route answers 200 with the (populated) elements at
the 0-based positions `(p - 1) * l` to `(p - 1) * l + l - 1` of the matching
tasks ordered by creation time descending: the ordered list is a permutation of
the matching tasks sorted by `createdAt` descending, the page has
`min l (n - (p - 1) * l)` elements for `n` matching tasks (the subtraction
truncated at zero), and its element `i < l` is element `(p - 1) * l + i` of the
ordered list. -/
theorem list_page_contents (L : Lib) (db : Db) (req : Req) (u : User) (params : ListParams)
    (p l : Nat)
    (hauth : authenticateToken L db req = .ok u) (hvalid : validateList params = [])
    (hp : pageOf params = (p : Int)) (hl : limitOf params = (l : Int))
    (hp1 : 1 ≤ p) :
    ∃ pagination,
      listTasks L db req params =
        (⟨200, .taskPage
            ((((sortByCreatedAtDesc (findTasks L db (buildListQuery u params))).drop
              ((p - 1) * l)).take l).map (populate db)) pagination⟩, db) ∧
      (sortByCreatedAtDesc (findTasks L db (buildListQuery u params))).Perm
        (findTasks L db (buildListQuery u params)) ∧
      (sortByCreatedAtDesc (findTasks L db (buildListQuery u params))).Sorted
        (fun a b => b.createdAt ≤ a.createdAt) ∧
      (((sortByCreatedAtDesc (findTasks L db (buildListQuery u params))).drop
          ((p - 1) * l)).take l).length =
        min l ((findTasks L db (buildListQuery u params)).length - (p - 1) * l) ∧
      ∀ i, i < l →
        (((sortByCreatedAtDesc (findTasks L db (buildListQuery u params))).drop
          ((p - 1) * l)).take l)[i]? =
        (sortByCreatedAtDesc (findTasks L db (buildListQuery u params)))[(p - 1) * l + i]? := by
  have hperm : (sortByCreatedAtDesc (findTasks L db (buildListQuery u params))).Perm
      (findTasks L db (buildListQuery u params)) := List.perm_insertionSort _ _
  have hw := window_spec (sortByCreatedAtDesc (findTasks L db (buildListQuery u params)))
    ((p - 1) * l) l
  refine ⟨paginationOf p l (countDocuments L db (buildListQuery u params)), ?_, hperm, ?_, ?_,
    hw.2⟩
  · rw [listTasks_valid hauth hvalid]
    simp only [pageTasks, hp, hl, skip_toNat hp1, Int.toNat_natCast]
  · haveI : IsTotal Task (fun a b => b.createdAt ≤ a.createdAt) :=
      ⟨fun a b => le_total b.createdAt a.createdAt⟩
    haveI : IsTrans Task (fun a b => b.createdAt ≤ a.createdAt) :=
      ⟨fun _ _ _ hab hbc => le_trans hbc hab⟩
    exact List.sorted_insertionSort _ _
  · rw [hw.1, hperm.length_eq]

/-- The scenario of the specification: John asks for page 2 with limit 10 of his
fifteen tasks and gets five. -/
theorem list_page_contents_witness :
    authenticateToken sampleLib fifteenDb (requestOf johnUser) = .ok johnUser ∧
    validateList { page := some "2", limit := some "10" } = [] ∧
    pageOf { page := some "2", limit := some "10" } = ((2 : Nat) : Int) ∧
    limitOf { page := some "2", limit := some "10" } = ((10 : Nat) : Int) ∧
    (findTasks sampleLib fifteenDb
      (buildListQuery johnUser { page := some "2", limit := some "10" })).length = 15 ∧
    (∃ pagination,
      listTasks sampleLib fifteenDb (requestOf johnUser) { page := some "2", limit := some "10" } =
        (⟨200, .taskPage
            ((((sortByCreatedAtDesc (findTasks sampleLib fifteenDb
                (buildListQuery johnUser { page := some "2", limit := some "10" }))).drop
              ((2 - 1) * 10)).take 10).map (populate fifteenDb)) pagination⟩, fifteenDb)) ∧
    (((sortByCreatedAtDesc (findTasks sampleLib fifteenDb
        (buildListQuery johnUser { page := some "2", limit := some "10" }))).drop
          ((2 - 1) * 10)).take 10).length = 5 :=
  have h := list_page_contents sampleLib fifteenDb (requestOf johnUser) johnUser
    { page := some "2", limit := some "10" } 2 10 rfl rfl rfl rfl (by decide)
  ⟨rfl, rfl, rfl, rfl, rfl,
    h.elim (fun pagination hp => ⟨pagination, hp.1⟩),
    h.elim (fun _ hp => hp.2.2.2.1.trans rfl)⟩

/-! ## Pagination metadata -/

/-- `ceilDiv` is the ceiling of the quotient. -/
theorem ceilDiv_eq_ceil (n l : Int) (hl : 0 < l) :
    ceilDiv n l = ⌈(n : ℚ) / (l : ℚ)⌉ := by
  symm
  rw [Int.ceil_eq_iff]
  have hlq : (0 : ℚ) < (l : ℚ) := by exact_mod_cast hl
  have h1 : (n + l - 1) / l * l ≤ n + l - 1 := Int.ediv_mul_le _ (ne_of_gt hl)
  have h2 : n + l - 1 < ((n + l - 1) / l + 1) * l := Int.lt_ediv_add_one_mul_self _ hl
  unfold ceilDiv
  constructor
  · rw [lt_div_iff₀ hlq]
    have : ((n + l - 1) / l - 1) * l < n := by nlinarith
    exact_mod_cast this
  · rw [div_le_iff₀ hlq]
    have : n ≤ (n + l - 1) / l * l := by nlinarith
    exact_mod_cast this

/-- Page `p` is before the last page iff `p * l` tasks do not exhaust the
matching ones. -/
theorem lt_ceilDiv_iff (p n l : Int) (hl : 0 < l) : p < ceilDiv n l ↔ p * l < n := by
  unfold ceilDiv
  rw [Int.lt_iff_add_one_le, Int.le_ediv_iff_mul_le hl]
  constructor
  · intro h
    nlinarith
  · intro h
    nlinarith

/-- C20: for an authenticated, valid list request with effective page `p ≥ 1`,
effective limit `l ≥ 1` and `n` matching tasks, the response has
`currentPage = p`, `totalTasks = n`, `totalPages = ⌈n / l⌉`, `hasNext` true iff
`p < totalPages`, equivalently iff `p * l < n`, equivalently iff page `p + 1` is
not empty, and `hasPrev` true iff `p > 1`. -/
theorem list_pagination (L : Lib) (db : Db) (req : Req) (u : User) (params : ListParams)
    (p l : Nat)
    (hauth : authenticateToken L db req = .ok u) (hvalid : validateList params = [])
    (hp : pageOf params = (p : Int)) (hl : limitOf params = (l : Int))
    (hp1 : 1 ≤ p) (hl1 : 1 ≤ l) :
    ∃ tasks pagination,
      listTasks L db req params = (⟨200, .taskPage tasks pagination⟩, db) ∧
      pagination.currentPage = p ∧
      pagination.totalTasks = (findTasks L db (buildListQuery u params)).length ∧
      pagination.totalPages =
        ⌈(((findTasks L db (buildListQuery u params)).length : ℚ)) / (l : ℚ)⌉ ∧
      (pagination.hasNext = true ↔ (p : Int) < pagination.totalPages) ∧
      (pagination.hasNext = true ↔
        p * l < (findTasks L db (buildListQuery u params)).length) ∧
      (pagination.hasNext = true ↔
        pageTasks L db (buildListQuery u params) ((((p + 1 : Nat) : Int) - 1) * l) l ≠ []) ∧
      (pagination.hasPrev = true ↔ 1 < p) := by
  have hlpos : (0 : Int) < (l : Int) := by exact_mod_cast hl1
  have hnext : ((p : Int) < ceilDiv ((findTasks L db (buildListQuery u params)).length : Int) l) ↔
      p * l < (findTasks L db (buildListQuery u params)).length := by
    rw [lt_ceilDiv_iff _ _ _ hlpos]
    exact_mod_cast Iff.rfl
  refine ⟨_, _, listTasks_valid hauth hvalid, ?_, rfl, ?_, ?_, ?_, ?_, ?_⟩
  · simp [paginationOf, hp]
  · simp only [paginationOf, hl, countDocuments]
    rw [ceilDiv_eq_ceil _ _ hlpos]
    simp only [Int.cast_natCast]
  · simp [paginationOf, hp, hl]
  · simp only [paginationOf, hp, hl, countDocuments, decide_eq_true_eq]
    exact hnext
  · simp only [paginationOf, hp, hl, countDocuments, decide_eq_true_eq]
    rw [hnext]
    have hskip : (((((p + 1 : Nat) : Int) - 1) * (l : Int)).toNat) = p * l := by
      have := skip_toNat (p := p + 1) (l := l) (by omega)
      simpa using this
    have hlen : (pageTasks L db (buildListQuery u params) ((((p + 1 : Nat) : Int) - 1) * l) l).length
        = min l ((findTasks L db (buildListQuery u params)).length - p * l) := by
      unfold pageTasks
      rw [hskip, Int.toNat_natCast, (window_spec _ _ _).1]
      unfold sortByCreatedAtDesc
      rw [(List.perm_insertionSort _ _).length_eq]
    rw [← List.length_pos, hlen]
    omega
  · simp only [paginationOf, hp, decide_eq_true_eq]
    exact_mod_cast Iff.rfl

/-- The scenario of the specification: page 2 with limit 10 of fifteen tasks has
two pages in all, no next page and a previous page. -/
theorem list_pagination_witness :
    authenticateToken sampleLib fifteenDb (requestOf johnUser) = .ok johnUser ∧
    validateList { page := some "2", limit := some "10" } = [] ∧
    (findTasks sampleLib fifteenDb
      (buildListQuery johnUser { page := some "2", limit := some "10" })).length = 15 ∧
    (∃ tasks,
      listTasks sampleLib fifteenDb (requestOf johnUser) { page := some "2", limit := some "10" } =
        (⟨200, .taskPage tasks
          { currentPage := 2, totalPages := 2, totalTasks := 15,
            hasNext := false, hasPrev := true }⟩, fifteenDb)) ∧
    (∃ tasks pagination,
      listTasks sampleLib fifteenDb (requestOf johnUser) { page := some "2", limit := some "10" } =
        (⟨200, .taskPage tasks pagination⟩, fifteenDb) ∧
      (pagination.hasPrev = true ↔ 1 < 2)) :=
  have h := list_pagination sampleLib fifteenDb (requestOf johnUser) johnUser
    { page := some "2", limit := some "10" } 2 10 rfl rfl rfl rfl (by decide) (by decide)
  ⟨rfl, rfl, rfl, ⟨_, rfl⟩,
    h.elim (fun tasks h' => h'.elim (fun pagination hp => ⟨tasks, pagination, hp.1, hp.2.2.2.2.2.2.2⟩))⟩



/-! ## Effective page and limit -/

/-- A decimal digit is not white space. -/
theorem not_isJsSpace_of_isDigit {c : Char} (h : isDigit c = true) : isJsSpace c = false := by
  have h1 : 48 ≤ c.toNat ∧ c.toNat ≤ 57 := by
    simp only [isDigit, Bool.and_eq_true, decide_eq_true_eq] at h
    exact ⟨h.1, h.2⟩
  simp only [isJsSpace]
  simp
  omega

/-- The digits of a run of decimal digits are the whole run. -/
theorem takeWhile_isDigit_of_all {ds : List Char} (h : ds.all isDigit = true) :
    ds.takeWhile isDigit = ds := by
  rw [List.takeWhile_eq_self_iff]
  simpa using h

/-- The magnitude `parseInt` reads from a non-empty run of decimal digits. -/
theorem parseMagnitude_of_digits {ds : List Char} (hne : ds.isEmpty = false)
    (h : ds.all isDigit = true) : parseMagnitude ds = some (digitsValue ds) := by
  unfold parseMagnitude
  split
  · simp [isDigit] at h
  · simp [isDigit] at h
  · rw [takeWhile_isDigit_of_all h, hne]
    simp

/-- A string that starts with a digit has no sign. -/
theorem splitSign_of_isDigit {c : Char} {ds : List Char} (hc : isDigit c = true) :
    splitSign (c :: ds) = (false, c :: ds) := by
  unfold splitSign
  split
  · rename_i heq
    rw [(List.cons.inj heq).1] at hc
    simp [isDigit] at hc
  · rename_i heq
    rw [(List.cons.inj heq).1] at hc
    simp [isDigit] at hc
  · rfl

/-- On a string matched by the pattern of `isInt`, `parseInt` reads the number
the validator compares with the bounds. -/
theorem parseInt_of_isIntString {s : String} (h : isIntString s = true) :
    parseInt (some s) = some (intValue s) := by
  obtain ⟨cs⟩ := s
  unfold isIntString at h
  unfold parseInt intValue
  simp only at h ⊢
  split at h
  · rename_i ds
    simp only [Bool.and_eq_true, Bool.not_eq_true'] at h
    have hd : List.dropWhile isJsSpace ('-' :: ds) = '-' :: ds := by
      rw [List.dropWhile_cons_of_neg]
      decide
    rw [hd]
    simp only [splitSign, parseMagnitude_of_digits h.1 h.2]
    rfl
  · rename_i ds
    simp only [Bool.and_eq_true, Bool.not_eq_true'] at h
    have hd : List.dropWhile isJsSpace ('+' :: ds) = '+' :: ds := by
      rw [List.dropWhile_cons_of_neg]
      decide
    rw [hd]
    simp only [splitSign, parseMagnitude_of_digits h.1 h.2]
    rfl
  · rename_i ds hminus hplus
    simp only [Bool.and_eq_true, Bool.not_eq_true'] at h
    cases cs with
    | nil => simp at h
    | cons c ds' =>
      have hc : isDigit c = true := by
        have := h.2
        simp only [List.all_cons, Bool.and_eq_true] at this
        exact this.1
      have hd : List.dropWhile isJsSpace (c :: ds') = c :: ds' := by
        rw [List.dropWhile_cons_of_neg]
        rw [not_isJsSpace_of_isDigit hc]
        decide
      rw [hd, splitSign_of_isDigit hc]
      simp only [parseMagnitude_of_digits h.1 h.2]
      rfl


/-- The effective value of a parameter that passed `isInt` with a lower bound
of at least 1 is its number. -/
theorem orDefault_of_isInt {s : String} {max : Option Int} {d : Int}
    (h : isInt s (some 1) max = true) :
    orDefault (parseInt (some s)) d = intValue s ∧ 1 ≤ intValue s ∧
      (∀ m, max = some m → intValue s ≤ m) := by
  unfold isInt at h
  simp only [Bool.and_eq_true, decide_eq_true_eq] at h
  obtain ⟨⟨hs, hmin⟩, hmax⟩ := h
  refine ⟨?_, hmin, ?_⟩
  · rw [parseInt_of_isIntString hs]
    unfold orDefault
    have : intValue s ≠ 0 := by omega
    simp [this]
  · intro m hm
    subst hm
    simpa using hmax

/-- C21: for a list request that passes the validation chains, the effective
page is at least 1 (1 when `page` is absent) and the effective limit lies in
1..100 (10 when `limit` is absent); so `skip = (page - 1) * limit` is not
negative and the divisor `limit` of `totalPages` is not zero. -/
theorem effective_page_and_limit (params : ListParams) (hvalid : validateList params = []) :
    1 ≤ pageOf params ∧
    (params.page = none → pageOf params = 1) ∧
    1 ≤ limitOf params ∧ limitOf params ≤ 100 ∧
    (params.limit = none → limitOf params = 10) ∧
    0 ≤ (pageOf params - 1) * limitOf params ∧
    limitOf params ≠ 0 := by
  simp only [validateList, List.append_eq_nil] at hvalid
  obtain ⟨⟨⟨⟨hpage, hlimit⟩, -⟩, -⟩, -⟩ := hvalid
  have hp : 1 ≤ pageOf params ∧ (params.page = none → pageOf params = 1) := by
    unfold pageOf
    cases hpv : params.page with
    | none => exact ⟨by decide, fun _ => rfl⟩
    | some s =>
      rw [hpv] at hpage
      simp only [checkOptional, check] at hpage
      split at hpage
      · rename_i hok
        obtain ⟨e, h1, -⟩ := orDefault_of_isInt (d := 1) hok
        rw [e]
        exact ⟨h1, fun h => by cases h⟩
      · cases hpage
  have hl : 1 ≤ limitOf params ∧ limitOf params ≤ 100 ∧
      (params.limit = none → limitOf params = 10) := by
    unfold limitOf
    cases hlv : params.limit with
    | none => exact ⟨by decide, by decide, fun _ => rfl⟩
    | some s =>
      rw [hlv] at hlimit
      simp only [checkOptional, check] at hlimit
      split at hlimit
      · rename_i hok
        obtain ⟨e, h1, h2⟩ := orDefault_of_isInt (d := 10) hok
        rw [e]
        exact ⟨h1, h2 100 rfl, fun h => by cases h⟩
      · cases hlimit
  refine ⟨hp.1, hp.2, hl.1, hl.2.1, hl.2.2, ?_, ?_⟩
  · apply mul_nonneg
    · omega
    · omega
  · omega

/-- A request for page 3 with limit 25. -/
theorem effective_page_and_limit_witness :
    validateList { page := some "3", limit := some "25" } = [] ∧
    pageOf { page := some "3", limit := some "25" } = 3 ∧
    1 ≤ pageOf { page := some "3", limit := some "25" } ∧
    limitOf { page := some "3", limit := some "25" } ≤ 100 :=
  have h := effective_page_and_limit { page := some "3", limit := some "25" } rfl
  ⟨rfl, rfl, h.1, h.2.2.2.1⟩



/-! ## The calendar query -/

/-- The filter object of the calendar route, field by field. -/
theorem buildCalendarQuery_fields (L : Lib) (u : User) (year month : Int) :
    buildCalendarQuery L u year month =
      { dueDateGte := makeDate L year (month - 1) 1 0 0 0
        dueDateLte := makeDate L year month 0 23 59 59
        assignedTo := if u.role = "user" then some u._id else none } := by
  unfold buildCalendarQuery
  by_cases hr : u.role = "user" <;> simp [hr]

/-- What the calendar query matches: a due date from the first instant of the
month to 23:59:59.000 of its last day, and the visibility condition. -/
theorem calendar_matches_iff (L : Lib) (u : User) (year month : Int) (t : Task) :
    (buildCalendarQuery L u year month).matches t = true ↔
      makeDate L year (month - 1) 1 0 0 0 ≤ t.dueDate ∧
      t.dueDate ≤ makeDate L year month 0 23 59 59 ∧
      (u.role = "user" → t.assignedTo = u._id) := by
  rw [buildCalendarQuery_fields]
  simp only [CalendarQuery.matches, Bool.and_eq_true, decide_eq_true_eq, fieldMatches_scope,
    and_assoc]

/-- On a server in UTC the upper bound of the calendar query lies 999
milliseconds before the last instant of the month. -/
theorem calendar_upper_bound (L : Lib) (hutc : L.utc = id) (u : User) (year month : Int) :
    (buildCalendarQuery L u year month).dueDateLte = monthLastInstant L year month - 999 := by
  rw [buildCalendarQuery_fields]
  simp only [monthLastInstant, makeDate, makeDay, hutc, id]
  ring

/-- C22, the code at the failing input: the store holds one task, due on 31
March 2025 at 23:59:59.500 UTC, inside March (between its first and its last
instant); the calendar query of the administrator for 2025/3 has the upper bound
23:59:59.000 of that day, does not match the task, and the route answers with
an empty list. -/
theorem calendar_misses_last_second :
    authenticateToken sampleLib lateDb (requestOf adminUser) = .ok adminUser ∧
    lateTask ∈ lateDb.tasks ∧
    monthFirstInstant sampleLib 2025 3 ≤ lateTask.dueDate ∧
    lateTask.dueDate ≤ monthLastInstant sampleLib 2025 3 ∧
    (buildCalendarQuery sampleLib adminUser 2025 3).dueDateLte = 1743465599000 ∧
    (buildCalendarQuery sampleLib adminUser 2025 3).matches lateTask = false ∧
    listTasksInRange sampleLib lateDb (requestOf adminUser) 2025 3 =
      (⟨200, .tasks []⟩, lateDb) :=
  ⟨rfl, by decide, by decide, by decide, by decide, by decide, rfl⟩

/-! ## Visibility scoping of the calendar query -/

/-- The visibility condition of the calendar query, by role. -/
theorem calendarScope_eq (L : Lib) (u : User) (year month : Int) (t : Task) :
    calendarScope L u year month t = (if u.role = "user" then t.assignedTo == u._id else true) := by
  unfold calendarScope
  rw [buildCalendarQuery_fields]
  by_cases hr : u.role = "user" <;> simp [hr, fieldMatches]

/-- The visibility condition of the list query, by role. -/
theorem listScope_eq (u : User) (params : ListParams) (t : Task) :
    listScope u params t = (if u.role = "user" then t.assignedTo == u._id else true) := by
  unfold listScope
  rw [buildListQuery_fields]
  by_cases hr : u.role = "user" <;> simp [hr, fieldMatches]

/-- C23: the visibility condition of the calendar query is that of the list
query on every task; for role `user` both hold iff the task is assigned to the
actor, for admin and manager both hold for every task. -/
theorem calendar_scope_eq_list_scope (L : Lib) (u : User) (params : ListParams)
    (year month : Int) (t : Task) :
    calendarScope L u year month t = listScope u params t ∧
    (u.role = "user" →
      (calendarScope L u year month t = true ↔ t.assignedTo = u._id) ∧
      (listScope u params t = true ↔ t.assignedTo = u._id)) ∧
    (u.role = "admin" ∨ u.role = "manager" →
      calendarScope L u year month t = true ∧ listScope u params t = true) := by
  have hc := calendarScope_eq L u year month t
  have hl := listScope_eq u params t
  refine ⟨hc.trans hl.symm, ?_, ?_⟩
  · intro hr
    rw [hc, hl]
    simp [hr]
  · intro hr
    rw [hc, hl]
    have hne : u.role ≠ "user" := by
      rcases hr with h | h <;> rw [h] <;> decide
    simp [hne]

/-- John's calendar and list queries scope the sample task alike. -/
theorem calendar_scope_eq_list_scope_witness :
    johnUser.role = "user" ∧
    calendarScope sampleLib johnUser 2025 3 sampleTask = listScope johnUser {} sampleTask ∧
    (calendarScope sampleLib johnUser 2025 3 sampleTask = true ↔
      sampleTask.assignedTo = johnUser._id) :=
  have h := calendar_scope_eq_list_scope sampleLib johnUser {} 2025 3 sampleTask
  ⟨rfl, h.1, (h.2.1 rfl).1⟩



/-! ## Accumulation of validation errors -/

/-- The field named by the error of one optional chain, if it reports one. -/
theorem checkOptional_params (v : Option String) (ok : String → Bool) (param msg : String) :
    (checkOptional v ok param msg).map (fun e => e.param) =
      if (match v with
          | none => false
          | some s => !(ok s)) = true then [param] else [] := by
  cases v with
  | none => rfl
  | some s =>
    by_cases h : ok s = true
    · simp [checkOptional, check, h]
    · have hf : ok s = false := by simpa using h
      simp [checkOptional, check, hf]

/-- The field named by the error of the `tags` chain, if it reports one. -/
theorem checkTags_params (v : Option TagsValue) :
    (checkTags v).map (fun e => e.param) =
      if (match v with
          | some (.other _) => true
          | _ => false) = true then ["tags"] else [] := by
  cases v with
  | none => rfl
  | some tv => cases tv <;> rfl

/-- The violating fields as the concatenation of one optional entry per field. -/
theorem violatingFields_eq (L : Lib) (b : TaskBody) :
    violatingFields L b =
      (if fieldViolates L b "title" = true then ["title"] else []) ++
      (if fieldViolates L b "description" = true then ["description"] else []) ++
      (if fieldViolates L b "status" = true then ["status"] else []) ++
      (if fieldViolates L b "priority" = true then ["priority"] else []) ++
      (if fieldViolates L b "dueDate" = true then ["dueDate"] else []) ++
      (if fieldViolates L b "assignedTo" = true then ["assignedTo"] else []) ++
      (if fieldViolates L b "tags" = true then ["tags"] else []) := by
  simp only [violatingFields, updateFieldNames, List.filter_cons, List.filter_nil]
  generalize fieldViolates L b "title" = c1
  generalize fieldViolates L b "description" = c2
  generalize fieldViolates L b "status" = c3
  generalize fieldViolates L b "priority" = c4
  generalize fieldViolates L b "dueDate" = c5
  generalize fieldViolates L b "assignedTo" = c6
  generalize fieldViolates L b "tags" = c7
  cases c1 <;> cases c2 <;> cases c3 <;> cases c4 <;> cases c5 <;> cases c6 <;> cases c7 <;> rfl

/-- The error list of the update chains names exactly the violating fields, in
chain order, for a patch whose `assignedTo`, if present, is judged alike by
`isMongoId` and by the rule of the well-formed id. -/
theorem validateUpdate_params (L : Lib) (b : TaskBody)
    (hid : ∀ s, b.assignedTo = some s → isMongoId s = isObjectIdHex s) :
    (validateUpdate L b).1.map (fun e => e.param) = violatingFields L b := by
  have h1 : (match b.title.map trim with
      | none => false
      | some s => !(isLength s 1 100)) = fieldViolates L b "title" := by
    cases hs : b.title with
    | none => simp [fieldViolates, hs]
    | some s => simp [fieldViolates, hs, isLength]
  have h2 : (match b.description.map trim with
      | none => false
      | some s => !(isLength s 1 500)) = fieldViolates L b "description" := by
    cases hs : b.description with
    | none => simp [fieldViolates, hs]
    | some s => simp [fieldViolates, hs, isLength]
  have h3 : (match b.status with
      | none => false
      | some s => !(statusValues.contains s)) = fieldViolates L b "status" := by
    cases hs : b.status with
    | none => simp [fieldViolates, hs]
    | some s => simp [fieldViolates, hs, statusValues]
  have h4 : (match b.priority with
      | none => false
      | some s => !(priorityValues.contains s)) = fieldViolates L b "priority" := by
    cases hs : b.priority with
    | none => simp [fieldViolates, hs]
    | some s => simp [fieldViolates, hs, priorityValues]
  have h5 : (match b.dueDate with
      | none => false
      | some s => !(L.isISO8601 s)) = fieldViolates L b "dueDate" := by
    cases hs : b.dueDate with
    | none => simp [fieldViolates, hs]
    | some s => simp [fieldViolates, hs]
  have h6 : (match b.assignedTo with
      | none => false
      | some s => !(isMongoId s)) = fieldViolates L b "assignedTo" := by
    cases hs : b.assignedTo with
    | none => simp [fieldViolates, hs]
    | some s => simp [fieldViolates, hs, hid s hs]
  have h7 : (match b.tags with
      | some (.other _) => true
      | _ => false) = fieldViolates L b "tags" := by
    cases hs : b.tags with
    | none => simp [fieldViolates, hs]
    | some tv => cases tv <;> simp [fieldViolates, hs]
  simp only [validateUpdate, List.map_append, checkOptional_params, checkTags_params]
  rw [h1, h2, h3, h4, h5, h6, h7, violatingFields_eq]

/-- An `assignedTo` with the marker `0x` or `0h` apart, the chains accumulate:
for an actor who passes the task-level gate and an update patch with at least
one field that violates its format rule, the route answers 400 with the error
list of the validation chains, and that list names exactly the violating
fields, one entry each, in chain order. -/
theorem validation_errors_accumulate (L : Lib) (ctx : Ctx) (db : Db) (req : Req) (u : User)
    (id : String) (t : Task) (body : TaskBody)
    (hauth : authenticateToken L db req = .ok u)
    (hgate : canAccessTask L db u id = .ok t)
    (hid : ∀ s, body.assignedTo = some s → isMongoId s = isObjectIdHex s)
    (hk : violatingFields L body ≠ []) :
    updateTask L ctx db req id body =
      (⟨400, .validationFailed (validateUpdate L body).1⟩, db) ∧
    (validateUpdate L body).1.map (fun e => e.param) = violatingFields L body ∧
    (validateUpdate L body).1.length = (violatingFields L body).length ∧
    ∀ field ∈ violatingFields L body, ∃ e ∈ (validateUpdate L body).1, e.param = field := by
  have hp := validateUpdate_params L body hid
  have hne : (validateUpdate L body).1 ≠ [] := by
    intro h
    rw [h] at hp
    exact hk hp.symm
  refine ⟨?_, hp, ?_, ?_⟩
  · simp [updateTask, hauth, hgate, updateTaskHandler, hne]
  · rw [← hp, List.length_map]
  · intro field hf
    rw [← hp, List.mem_map] at hf
    obtain ⟨e, he, rfl⟩ := hf
    exact ⟨e, he, rfl⟩

/-- C24, the code at the failing input: John, the assignee of the sample task,
sends a patch whose fields `status` and `assignedTo` both violate their format
rule, the `assignedTo` being `0x00000000000000000000c2`, which is not a
well-formed id; `isMongoId` accepts it, and the route answers 400 with an error
list that names `status` alone.  With four other violating fields the list
names all four. -/
theorem prefixed_assignee_raises_no_error :
    authenticateToken sampleLib sampleDb (requestOf johnUser) = .ok johnUser ∧
    canAccessTask sampleLib sampleDb johnUser "0000000000000000000000f1" = .ok sampleTask ∧
    isObjectIdHex "0x00000000000000000000c2" = false ∧
    isMongoId "0x00000000000000000000c2" = true ∧
    violatingFields sampleLib
      { status := some "done", assignedTo := some "0x00000000000000000000c2" } =
      ["status", "assignedTo"] ∧
    updateTask sampleLib sampleCtx sampleDb (requestOf johnUser) "0000000000000000000000f1"
      { status := some "done", assignedTo := some "0x00000000000000000000c2" } =
      (⟨400, .validationFailed [⟨"status", "Invalid status"⟩]⟩, sampleDb) ∧
    violatingFields sampleLib
      { title := some "  ", status := some "done", dueDate := some "tomorrow",
        tags := some (.other "x") } = ["title", "status", "dueDate", "tags"] ∧
    updateTask sampleLib sampleCtx sampleDb (requestOf johnUser) "0000000000000000000000f1"
      { title := some "  ", status := some "done", dueDate := some "tomorrow",
        tags := some (.other "x") } =
      (⟨400, .validationFailed
        [⟨"title", "Title must be 1-100 characters"⟩, ⟨"status", "Invalid status"⟩,
          ⟨"dueDate", "Valid due date required"⟩, ⟨"tags", "Tags must be an array"⟩]⟩,
        sampleDb) :=
  ⟨rfl, rfl, rfl, rfl, by decide, rfl, by decide, rfl⟩



/-! ## The role gate -/

/-- C25: for every list of roles and every request, `authorize` lets the request
proceed iff a user is attached to it and the role of that user is in the list;
it answers 401 when no user is attached and 403 when the role is not in the
list, and the request ends there: the create route, guarded by
`authorize('admin', 'manager')`, returns that 403 with the database untouched. -/
theorem authorize_iff (L : Lib) (ctx : Ctx) (db : Db) (req : Req) (body : TaskBody)
    (roles : List String) (user : Option User) :
    (authorize roles user = .ok () ↔ ∃ u, user = some u ∧ u.role ∈ roles) ∧
    (user = none → authorize roles user = .error ⟨401, .message "Authentication required"⟩) ∧
    (∀ u, user = some u → u.role ∉ roles →
      authorize roles user =
        .error ⟨403, .message ("Access denied. Required roles: " ++ ", ".intercalate roles)⟩) ∧
    (∀ u, authenticateToken L db req = .ok u → u.role ∉ ["admin", "manager"] →
      createTask L ctx db req body =
        (⟨403, .message "Access denied. Required roles: admin, manager"⟩, db)) := by
  refine ⟨?_, ?_, ?_, ?_⟩
  · cases user with
    | none => simp [authorize]
    | some u =>
      by_cases h : u.role ∈ roles
      · simp [authorize, h]
      · simp [authorize, h]
  · rintro rfl
    rfl
  · rintro u rfl h
    simp [authorize, h]
  · intro u hauth h
    have hgate : authorize ["admin", "manager"] (some u) =
        .error ⟨403, .message "Access denied. Required roles: admin, manager"⟩ := by
      have hc : (["admin", "manager"].contains u.role) = false := by
        simpa using h
      simp only [authorize, hc]
      rfl
    simp only [createTask, hauth, hgate]

/-- The manager is refused by `authorize('admin')`, and so is a request without
a user. -/
theorem authorize_iff_witness :
    authorize ["admin"] (some managerUser) =
      .error ⟨403, .message "Access denied. Required roles: admin"⟩ ∧
    authorize ["admin"] none = .error ⟨401, .message "Authentication required"⟩ :=
  have h := authorize_iff sampleLib sampleCtx sampleDb (requestOf managerUser) {} ["admin"]
    (some managerUser)
  ⟨h.2.2.1 managerUser rfl (by decide),
    (authorize_iff sampleLib sampleCtx sampleDb (requestOf managerUser) {} ["admin"] none).2.1 rfl⟩



/-! ## Visibility and the task-level gate -/

/-- The list query without filters matches exactly the tasks in scope. -/
theorem matches_no_filter (L : Lib) (u : User) (t : Task) :
    (buildListQuery u {}).matches L t = listScope u {} t := by
  unfold listScope
  rw [buildListQuery_fields]
  simp [Query.matches, truthy, fieldMatches]

/-- A query of the list route matches only tasks in scope. -/
theorem listScope_of_matches {L : Lib} {u : User} {params : ListParams} {t : Task}
    (h : (buildListQuery u params).matches L t = true) : listScope u params t = true := by
  unfold listScope
  unfold Query.matches at h
  simp only [Bool.and_eq_true] at h
  exact h.1.1.1

/-- A query of the calendar route matches only tasks in scope. -/
theorem calendarScope_of_matches {L : Lib} {u : User} {year month : Int} {t : Task}
    (h : (buildCalendarQuery L u year month).matches t = true) :
    calendarScope L u year month t = true := by
  unfold calendarScope
  unfold CalendarQuery.matches at h
  simp only [Bool.and_eq_true] at h
  exact h.2

/-- C26: for an actor of role `user` and a stored task, a task in the
visibility scope of the list or of the calendar query is one `canAccessTask`
allows the actor on; and the tasks `canAccessTask` allows the actor on that no
list query and no calendar query of the actor matches are exactly those created
by the actor and not assigned to the actor. -/
theorem user_scope_and_gate (L : Lib) (db : Db) (u : User) (id : String) (t : Task)
    (hrole : u.role = "user") (ht : findTaskById L db id = some (some t)) :
    (∀ params, listScope u params t = true → canAccessTask L db u id = .ok t) ∧
    (∀ year month, calendarScope L u year month t = true → canAccessTask L db u id = .ok t) ∧
    ((canAccessTask L db u id = .ok t ∧
        (∀ params, (buildListQuery u params).matches L t = false) ∧
        (∀ year month, (buildCalendarQuery L u year month).matches t = false)) ↔
      (t.createdBy = u._id ∧ t.assignedTo ≠ u._id)) := by
  have key := canAccessTask_of_found (u := u) ht
  have hls : ∀ params, listScope u params t = true ↔ t.assignedTo = u._id := by
    intro params
    rw [listScope_eq]
    simp [hrole]
  have hcs : ∀ year month, calendarScope L u year month t = true ↔ t.assignedTo = u._id := by
    intro year month
    rw [calendarScope_eq]
    simp [hrole]
  have hallow : t.assignedTo = u._id → canAccessTask L db u id = .ok t := by
    intro h
    rw [key, if_pos (Or.inr (Or.inr (Or.inl h.symm)))]
  refine ⟨fun params h => hallow ((hls params).mp h),
    fun year month h => hallow ((hcs year month).mp h), ?_⟩
  constructor
  · rintro ⟨hok, hlist, -⟩
    have hna : t.assignedTo ≠ u._id := by
      intro h
      have hm : (buildListQuery u {}).matches L t = true := by
        rw [matches_no_filter]
        exact (hls {}).mpr h
      rw [hlist {}] at hm
      cases hm
    refine ⟨?_, hna⟩
    rw [key] at hok
    split at hok
    · rename_i hc
      rcases hc with h | h | h | h
      · rw [hrole] at h
        exact absurd h (by decide)
      · rw [hrole] at h
        exact absurd h (by decide)
      · exact absurd h.symm hna
      · exact h.symm
    · cases hok
  · rintro ⟨hcb, hna⟩
    refine ⟨?_, ?_, ?_⟩
    · rw [key, if_pos (Or.inr (Or.inr (Or.inr hcb.symm)))]
    · intro params
      cases hm : (buildListQuery u params).matches L t with
      | false => rfl
      | true => exact absurd ((hls params).mp (listScope_of_matches hm)) hna
    · intro year month
      cases hm : (buildCalendarQuery L u year month).matches t with
      | false => rfl
      | true => exact absurd ((hcs year month).mp (calendarScope_of_matches hm)) hna

/-- John's task is in his list scope and the gate allows him on it. -/
theorem user_scope_and_gate_witness :
    johnUser.role = "user" ∧
    findTaskById sampleLib sampleDb "0000000000000000000000f1" = some (some sampleTask) ∧
    listScope johnUser {} sampleTask = true ∧
    canAccessTask sampleLib sampleDb johnUser "0000000000000000000000f1" = .ok sampleTask :=
  ⟨rfl, rfl, rfl,
    (user_scope_and_gate sampleLib sampleDb johnUser "0000000000000000000000f1" sampleTask
      rfl rfl).1 {} rfl⟩

/-! ## An unknown role -/

/-- C28: for an authenticated actor whose role is none of admin, manager and
user, the list and the calendar query carry no visibility condition, so the
list query without filters matches every task, whereas `canAccessTask` allows
the actor on a stored task iff the actor is its assignee or its creator; hence
a stored task that is neither assigned to nor created by the actor is matched
by the actor's list query while the read route answers 403 for it. -/
theorem unknown_role_scope_and_gate (L : Lib) (db : Db) (req : Req) (u : User)
    (id : String) (t : Task)
    (hauth : authenticateToken L db req = .ok u)
    (hrole : u.role ≠ "admin" ∧ u.role ≠ "manager" ∧ u.role ≠ "user")
    (ht : findTaskById L db id = some (some t)) :
    (∀ params t', listScope u params t' = true) ∧
    (∀ year month t', calendarScope L u year month t' = true) ∧
    (∀ t', (buildListQuery u {}).matches L t' = true) ∧
    (canAccessTask L db u id = .ok t ↔ (u._id = t.assignedTo ∨ u._id = t.createdBy)) ∧
    (u._id ≠ t.assignedTo → u._id ≠ t.createdBy →
      t ∈ findTasks L db (buildListQuery u {}) ∧
      getTask L db req id = (⟨403, .message "Access denied to this task"⟩, db)) := by
  obtain ⟨hna, hnm, hnu⟩ := hrole
  have key := canAccessTask_of_found (u := u) ht
  have hls : ∀ params t', listScope u params t' = true := by
    intro params t'
    rw [listScope_eq]
    simp [hnu]
  have hall : ∀ t', (buildListQuery u {}).matches L t' = true := by
    intro t'
    rw [matches_no_filter]
    exact hls {} t'
  refine ⟨hls, ?_, hall, ?_, ?_⟩
  · intro year month t'
    rw [calendarScope_eq]
    simp [hnu]
  · rw [key]
    constructor
    · intro h
      split at h
      · rename_i hc
        rcases hc with h' | h' | h' | h'
        · exact absurd h' hna
        · exact absurd h' hnm
        · exact Or.inl h'
        · exact Or.inr h'
      · cases h
    · intro h
      rw [if_pos (Or.inr (Or.inr h))]
  · intro h1 h2
    constructor
    · unfold findTasks
      rw [List.mem_filter]
      exact ⟨List.mem_of_find?_eq_some (findTaskById_id ht).2, hall t⟩
    · have hden : canAccessTask L db u id = .error ⟨403, .message "Access denied to this task"⟩ := by
        rw [key, if_neg]
        rintro (h | h | h | h)
        · exact hna h
        · exact hnm h
        · exact h1 h
        · exact h2 h
      simp only [getTask, hauth, hden]

/-- The guest is listed the sample task and is denied reading it. -/
theorem unknown_role_scope_and_gate_witness :
    authenticateToken sampleLib guestDb (requestOf guestUser) = .ok guestUser ∧
    findTaskById sampleLib guestDb "0000000000000000000000f1" = some (some sampleTask) ∧
    sampleTask ∈ findTasks sampleLib guestDb (buildListQuery guestUser {}) ∧
    (∃ pagination, listTasks sampleLib guestDb (requestOf guestUser) {} =
      (⟨200, .taskPage [populate guestDb sampleTask, populate guestDb doneTask] pagination⟩,
        guestDb)) ∧
    getTask sampleLib guestDb (requestOf guestUser) "0000000000000000000000f1" =
      (⟨403, .message "Access denied to this task"⟩, guestDb) :=
  have h := (unknown_role_scope_and_gate sampleLib guestDb (requestOf guestUser) guestUser
    "0000000000000000000000f1" sampleTask rfl (by decide) rfl).2.2.2.2 (by decide) (by decide)
  ⟨rfl, rfl, h.1, ⟨_, rfl⟩, h.2⟩



/-! ## Editing through the task form -/

/-- The authenticated user is the stored user with that id. -/
theorem authenticateToken_ok_found {L : Lib} {db : Db} {req : Req} {u : User}
    (h : authenticateToken L db req = .ok u) : findUser db u._id = some u := by
  unfold authenticateToken at h
  simp only [] at h
  split at h
  · cases h
  · split at h
    · cases h
    · split at h
      · cases h
      · cases h
      · rename_i user hfind
        injection h with h
        subst h
        unfold findUserById at hfind
        rw [Option.map_eq_some'] at hfind
        obtain ⟨oid, -, hfind⟩ := hfind
        unfold findUser at hfind ⊢
        have hp := List.find?_some hfind
        rw [beq_iff_eq] at hp
        rw [hp]
        exact hfind

/-- The call the form makes in edit mode is an update of the edited task whose
body carries the `assignedTo` of the form. -/
theorem handleSubmit_edit {B : Browser} {task : PopulatedTask} {form : FormData}
    {call : ApiCall} (h : handleSubmit B (some task) form = some call) :
    ∃ body, call = .updateTask task.task._id body ∧ body.assignedTo = some form.assignedTo ∧
      form.assignedTo ≠ "" := by
  unfold handleSubmit at h
  split at h
  · cases h
  · rename_i hv
    split at h
    · cases h
    · injection h with h
      subst h
      refine ⟨_, rfl, rfl, ?_⟩
      have hv' : validateForm B form = true := by simpa using hv
      simp only [validateForm, Bool.and_eq_true] at hv'
      have := hv'.1.1.2
      simpa using this

/-- With the assignee select disabled no event changes `assignedTo`. -/
theorem applyEvent_assignedTo (form : FormData) (ev : FormEvent) :
    (applyEvent true form ev).assignedTo = form.assignedTo := by
  cases ev with
  | change name value =>
    simp only [applyEvent]
    repeat' split
    all_goals first | rfl | simp_all
  | tagAdd tagInput =>
    simp only [applyEvent]
    split <;> rfl
  | tagRemove tag => rfl

/-- With the assignee select disabled no sequence of events changes
`assignedTo`. -/
theorem foldl_applyEvent_assignedTo (events : List FormEvent) (form : FormData) :
    (events.foldl (applyEvent true) form).assignedTo = form.assignedTo := by
  induction events generalizing form with
  | nil => rfl
  | cons ev evs ih => rw [List.foldl_cons, ih, applyEvent_assignedTo]

/-- The form of a task whose assignee exists is prefilled with the id of the
assignee. -/
theorem prefillForm_assignedTo (B : Browser) {db : Db} {t : Task} {u : User}
    (hu : findUser db t.assignedTo = some u) (hne : t.assignedTo ≠ "") :
    (prefillForm B (populate db t)).assignedTo = t.assignedTo := by
  have hp := List.find?_some hu
  have hid : u._id = t.assignedTo := by simpa using hp
  simp only [prefillForm, populate, populateRef, hu, Option.map_some', orElse, hid, hne,
    if_false]

/-- C27: a plain user, the assignee of a stored task, edits it through the task
form: the form is prefilled from the task, the assignee select is disabled, and
after any sequence of form events the submitted call is an update of that task
whose body carries `assignedTo` equal to the task's current assignee.  The
update route never answers it with 200 and leaves the database unchanged;
whenever the body passes the format validation of the backend the answer is 403
`Only admins and managers can reassign tasks`. -/
theorem taskForm_edit_by_assignee (L : Lib) (ctx : Ctx) (db : Db) (req : Req) (u : User)
    (t : Task) (B : Browser) (hasRole : List String → Bool)
    (events : List FormEvent) (call : ApiCall)
    (hauth : authenticateToken L db req = .ok u) (hrole : u.role = "user")
    (hid : u._id ≠ "") (hno : hasRole ["admin", "manager"] = false)
    (ht : findTaskById L db t._id = some (some t)) (hassigned : t.assignedTo = u._id)
    (hsubmit : handleSubmit B (some (populate db t))
      (events.foldl (applyEvent (assigneeSelectDisabled hasRole true))
        (prefillForm B (populate db t))) = some call) :
    ∃ body, call = .updateTask t._id body ∧
      body.assignedTo = some t.assignedTo ∧
      (updateTask L ctx db req t._id body).1.status ≠ 200 ∧
      (updateTask L ctx db req t._id body).2 = db ∧
      ((validateUpdate L body).1 = [] →
        updateTask L ctx db req t._id body =
          (⟨403, .message "Only admins and managers can reassign tasks"⟩, db)) := by
  have hdis : assigneeSelectDisabled hasRole true = true := by
    simp [assigneeSelectDisabled, hno]
  rw [hdis] at hsubmit
  obtain ⟨body, hcall, hbody, -⟩ := handleSubmit_edit hsubmit
  have hu : findUser db t.assignedTo = some u := by
    rw [hassigned]
    exact authenticateToken_ok_found hauth
  have hne : t.assignedTo ≠ "" := by
    rw [hassigned]
    exact hid
  rw [foldl_applyEvent_assignedTo, prefillForm_assignedTo B hu hne] at hbody
  have htid : (populate db t).task._id = t._id := rfl
  rw [htid] at hcall
  have hgate : canAccessTask L db u t._id = .ok t := by
    rw [canAccessTask_of_found ht, if_pos (Or.inr (Or.inr (Or.inl hassigned.symm)))]
  have hna : ¬ u.role = "admin" := by rw [hrole]; decide
  have hnm : ¬ u.role = "manager" := by rw [hrole]; decide
  refine ⟨body, hcall, hbody, ?_⟩
  by_cases hv : (validateUpdate L body).1 = []
  · have htr := truthy_assignedTo_of_valid hbody hv
    have hres : updateTask L ctx db req t._id body =
        (⟨403, .message "Only admins and managers can reassign tasks"⟩, db) := by
      simp [updateTask, hauth, hgate, updateTaskHandler, hv, htr, hna, hnm]
    rw [hres]
    exact ⟨by simp, rfl, fun _ => rfl⟩
  · have hres : updateTask L ctx db req t._id body =
        (⟨400, .validationFailed (validateUpdate L body).1⟩, db) := by
      simp [updateTask, hauth, hgate, updateTaskHandler, hv]
    rw [hres]
    exact ⟨by simp, rfl, fun h => absurd h hv⟩

/-- John renames his task in the form and is answered 403. -/
theorem taskForm_edit_by_assignee_witness :
    authenticateToken formLib sampleDb (requestOf johnUser) = .ok johnUser ∧
    johnUser.role = "user" ∧
    findTaskById formLib sampleDb sampleTask._id = some (some sampleTask) ∧
    sampleTask.assignedTo = johnUser._id ∧
    handleSubmit sampleBrowser (some (populate sampleDb sampleTask))
      (johnEdits.foldl (applyEvent (assigneeSelectDisabled (fun _ => false) true))
        (prefillForm sampleBrowser (populate sampleDb sampleTask))) =
      some (.updateTask "0000000000000000000000f1" johnPayload) ∧
    (validateUpdate formLib johnPayload).1 = [] ∧
    ∃ body, ApiCall.updateTask "0000000000000000000000f1" johnPayload =
        .updateTask "0000000000000000000000f1" body ∧
      body.assignedTo = some sampleTask.assignedTo ∧
      (updateTask formLib sampleCtx sampleDb (requestOf johnUser)
        "0000000000000000000000f1" body).1.status ≠ 200 ∧
      (updateTask formLib sampleCtx sampleDb (requestOf johnUser)
        "0000000000000000000000f1" body).2 = sampleDb ∧
      ((validateUpdate formLib body).1 = [] →
        updateTask formLib sampleCtx sampleDb (requestOf johnUser)
          "0000000000000000000000f1" body =
          (⟨403, .message "Only admins and managers can reassign tasks"⟩, sampleDb)) :=
  ⟨rfl, rfl, rfl, rfl, rfl, rfl,
    taskForm_edit_by_assignee formLib sampleCtx sampleDb (requestOf johnUser) johnUser
      sampleTask sampleBrowser (fun _ => false) johnEdits
      (.updateTask "0000000000000000000000f1" johnPayload)
      rfl rfl (by decide) rfl rfl rfl rfl⟩



/-! ## Pages partition the result -/

/-- The first `k` windows of size `l` of a list make up its first `k * l`
elements. -/
theorem flatMap_windows {α : Type} (xs : List α) (l k : Nat) :
    (List.range k).flatMap (fun i => (xs.drop (i * l)).take l) = xs.take (k * l) := by
  induction k with
  | zero => simp
  | succ k ih =>
    rw [List.range_succ, List.flatMap_append, ih, List.flatMap_singleton, Nat.succ_mul,
      List.take_add]

/-- The page of the list route with number `i + 1`, as a window. -/
theorem pageTasks_window (L : Lib) (db : Db) (q : Query) (l i : Nat) :
    pageTasks L db q ((((i + 1 : Nat) : Int) - 1) * (l : Int)) (l : Int) =
      ((sortByCreatedAtDesc (findTasks L db q)).drop (i * l)).take l := by
  have hskip : (((((i + 1 : Nat) : Int) - 1) * (l : Int)).toNat) = i * l := by
    have := skip_toNat (p := i + 1) (l := l) (by omega)
    simpa using this
  unfold pageTasks
  rw [hskip, Int.toNat_natCast]

/-- The number of pages as a natural number covers the matching tasks. -/
theorem le_ceilDiv_mul (n l : Nat) (hl : 1 ≤ l) :
    n ≤ (ceilDiv (n : Int) (l : Int)).toNat * l := by
  have hlpos : (0 : Int) < (l : Int) := by exact_mod_cast hl
  have h2 : (n : Int) + l - 1 < (((n : Int) + l - 1) / l + 1) * l :=
    Int.lt_ediv_add_one_mul_self _ hlpos
  have hnn : (0 : Int) ≤ ((n : Int) + l - 1) / l :=
    Int.ediv_nonneg (by omega) (by omega)
  have h3 : (n : Int) ≤ (((n : Int) + l - 1) / l) * l := by nlinarith
  have h4 : (((ceilDiv (n : Int) (l : Int)).toNat : Nat) : Int) = ((n : Int) + l - 1) / l := by
    unfold ceilDiv
    exact Int.toNat_of_nonneg hnn
  have : (n : Int) ≤ (((ceilDiv (n : Int) (l : Int)).toNat * l : Nat) : Int) := by
    push_cast
    rw [h4]
    exact h3
  exact_mod_cast this

/-- C29: for a fixed store, query and limit `l ≥ 1` with `n` matching tasks, the
pages 1 to `⌈n / l⌉` of the list route, concatenated, are the matching tasks in
creation-time-descending order (a sorted permutation of the matching tasks, so
each task occurs exactly once), every page beyond `⌈n / l⌉` is empty, and a
valid request for page `i + 1` with that limit and query is answered with that
page. -/
theorem pages_partition (L : Lib) (db : Db) (q : Query) (l : Nat) (hl : 1 ≤ l) :
    (List.range (ceilDiv ((findTasks L db q).length : Int) (l : Int)).toNat).flatMap
        (fun i => pageTasks L db q ((((i + 1 : Nat) : Int) - 1) * (l : Int)) (l : Int)) =
      sortByCreatedAtDesc (findTasks L db q) ∧
    (sortByCreatedAtDesc (findTasks L db q)).Perm (findTasks L db q) ∧
    (sortByCreatedAtDesc (findTasks L db q)).Sorted (fun a b => b.createdAt ≤ a.createdAt) ∧
    (∀ p : Nat, ceilDiv ((findTasks L db q).length : Int) (l : Int) < (p : Int) →
      pageTasks L db q (((p : Int) - 1) * (l : Int)) (l : Int) = []) ∧
    (∀ req u params (i : Nat), authenticateToken L db req = .ok u →
      validateList params = [] → buildListQuery u params = q →
      pageOf params = ((i + 1 : Nat) : Int) → limitOf params = (l : Int) →
      ∃ pagination, listTasks L db req params =
        (⟨200, .taskPage
          ((pageTasks L db q ((((i + 1 : Nat) : Int) - 1) * (l : Int)) (l : Int)).map
            (populate db)) pagination⟩, db)) := by
  have hperm : (sortByCreatedAtDesc (findTasks L db q)).Perm (findTasks L db q) :=
    List.perm_insertionSort _ _
  have hlpos : (0 : Int) < (l : Int) := by exact_mod_cast hl
  refine ⟨?_, hperm, ?_, ?_, ?_⟩
  · simp only [pageTasks_window]
    rw [flatMap_windows]
    apply List.take_of_length_le
    rw [hperm.length_eq]
    exact le_ceilDiv_mul _ _ hl
  · haveI : IsTotal Task (fun a b => b.createdAt ≤ a.createdAt) :=
      ⟨fun a b => le_total b.createdAt a.createdAt⟩
    haveI : IsTrans Task (fun a b => b.createdAt ≤ a.createdAt) :=
      ⟨fun _ _ _ hab hbc => le_trans hbc hab⟩
    exact List.sorted_insertionSort _ _
  · intro p hp
    have hp1 : 1 ≤ p := by
      have hnn : (0 : Int) ≤ ceilDiv ((findTasks L db q).length : Int) (l : Int) := by
        unfold ceilDiv
        exact Int.ediv_nonneg (by omega) (by omega)
      omega
    obtain ⟨i, rfl⟩ : ∃ i, p = i + 1 := ⟨p - 1, by omega⟩
    rw [pageTasks_window]
    have hcover : (findTasks L db q).length ≤ i * l := by
      have h1 := le_ceilDiv_mul (findTasks L db q).length l hl
      have h2 : (ceilDiv ((findTasks L db q).length : Int) (l : Int)).toNat ≤ i := by
        omega
      exact le_trans h1 (Nat.mul_le_mul_right l h2)
    rw [List.drop_eq_nil_of_le (by rw [hperm.length_eq]; exact hcover)]
    exact List.take_nil

  · intro req u params i hauth hvalid hq hp hlim
    rw [listTasks_valid hauth hvalid, hq, hp, hlim]
    exact ⟨_, rfl⟩

/-- John's fifteen tasks with limit 10: two pages make up the result and the
third page is empty. -/
theorem pages_partition_witness :
    (ceilDiv ((findTasks sampleLib fifteenDb (buildListQuery johnUser {})).length : Int)
      ((10 : Nat) : Int)).toNat = 2 ∧
    (List.range (ceilDiv ((findTasks sampleLib fifteenDb
          (buildListQuery johnUser {})).length : Int) ((10 : Nat) : Int)).toNat).flatMap
        (fun i => pageTasks sampleLib fifteenDb (buildListQuery johnUser {})
          ((((i + 1 : Nat) : Int) - 1) * ((10 : Nat) : Int)) ((10 : Nat) : Int)) =
      sortByCreatedAtDesc (findTasks sampleLib fifteenDb (buildListQuery johnUser {})) ∧
    pageTasks sampleLib fifteenDb (buildListQuery johnUser {})
      ((((3 : Nat) : Int) - 1) * ((10 : Nat) : Int)) ((10 : Nat) : Int) = [] :=
  have h := pages_partition sampleLib fifteenDb (buildListQuery johnUser {}) 10 (by decide)
  ⟨rfl, h.1, h.2.2.2.1 3 (by decide)⟩


end TaskManagement
